import Mathlib

/-!
# Verification of the dashboard orchestration core (`frontend/app.js`)

This file gives a shallow embedding of the client-side orchestration logic of
the scraper dashboard: discovery-settings persistence and normalization, the
unique-email export filter, and the `Dashboard` controller state machine
(discovery loop, enrichment single-flight, auto-enrich queueing, loop-completion
finalization, and stats-poll reconciliation).

Modelling conventions:
* JavaScript numbers are modelled as rationals (`ℚ`); `NaN` is modelled by
  `Option ℚ` with `none` (infinities are out of scope).  Fields that the code
  only ever handles as integral counters are modelled as `Int`/`Nat`.
* Host built-ins (`Number(string)` coercion, the e-mail regular-expression
  engine) are passed in as explicit function parameters, so every theorem
  quantifies over their behaviour.
* Asynchronous collaborator calls (fetches, `startEnrichment`,
  `notifyDiscoveryLoopComplete`, …) are modelled by explicit outcome
  parameters threaded into the functions that await them.
-/

namespace YtScraper

/-- A JavaScript value, restricted to the shapes the settings code handles.
`num none` models `NaN`; `strArr` models arrays of strings (the only arrays
the settings machinery stores). -/
inductive JSVal where
  | undef
  | null
  | num (value : Option ℚ)
  | str (value : String)
  | bool (value : Bool)
  | strArr (value : List String)
  deriving DecidableEq

/-- JavaScript truthiness for the modelled values (`Boolean(v)`). -/
def jsTruthy : JSVal → Bool
  | .undef => false
  | .null => false
  | .num none => false
  | .num (some q) => q ≠ 0
  | .str s => s ≠ ""
  | .bool b => b
  | .strArr _ => true

/-- JavaScript `Number(v)` coercion.  String parsing is delegated to the host
parameter `nos` (`none` = `NaN`); an array coerces through its comma-joined
string form, the empty array to `0`. -/
def jsNumber (nos : String → Option ℚ) : JSVal → Option ℚ
  | .undef => none
  | .null => some 0
  | .num v => v
  | .str s => nos s
  | .bool b => some (if b then 1 else 0)
  | .strArr [] => some 0
  | .strArr (x :: xs) => nos (String.intercalate "," (x :: xs))

/-- `parseDiscoveryKeywords` (app.js:154-162): split on newlines/commas, trim,
drop empties.  Splitting on single delimiter characters instead of delimiter
runs is equivalent because empty fragments are filtered out. -/
def parseDiscoveryKeywords (text : String) : List String :=
  if text = "" then []
  else ((text.split fun c => c = '\n' ∨ c = ',').map String.trim).filter (fun w => w ≠ "")

/-- `parseDiscoveryDenyLanguages` (app.js:164-172): split on whitespace/commas,
trim, lower-case, drop empties. -/
def parseDiscoveryDenyLanguages (text : String) : List String :=
  if text = "" then []
  else
    ((text.split fun c => c.isWhitespace ∨ c = ',').map
      (fun v => v.trim.toLower)).filter (fun w => w ≠ "")

/-- The default keyword text (app.js:151-152). -/
def DEFAULT_DISCOVERY_KEYWORDS : String :=
  "crypto, bitcoin, ethereum, defi, altcoin, memecoin, onchain, crypto trading"

/-- The normalized discovery-settings record returned by
`normalizeDiscoverySettings` (value shapes as produced by the code: integral
numerics after `Math.floor`, mode one of the two literals). -/
structure DiscoverySettings where
  keywordsText : String
  keywords : List String
  perKeyword : Int
  lastUploadMaxAgeDays : Option Int
  denyLanguagesText : String
  denyLanguages : List String
  enrichLimit : Option Int
  autoEnrichEnabled : Bool
  autoEnrichMode : String
  runUntilStopped : Bool
  deriving DecidableEq

/-- `defaultDiscoverySettingsState` (app.js:174-187). -/
def defaultDiscoverySettingsState : DiscoverySettings :=
  { keywordsText := DEFAULT_DISCOVERY_KEYWORDS
    keywords := parseDiscoveryKeywords DEFAULT_DISCOVERY_KEYWORDS
    perKeyword := 5
    lastUploadMaxAgeDays := none
    denyLanguagesText := ""
    denyLanguages := []
    enrichLimit := none
    autoEnrichEnabled := false
    autoEnrichMode := "email_only"
    runUntilStopped := false }

/-- The raw (untrusted) settings object fed to `normalizeDiscoverySettings`:
each field is an arbitrary JavaScript value. -/
structure RawSettings where
  keywordsText : JSVal := .undef
  keywords : JSVal := .undef
  perKeyword : JSVal := .undef
  lastUploadMaxAgeDays : JSVal := .undef
  denyLanguagesText : JSVal := .undef
  denyLanguages : JSVal := .undef
  enrichLimit : JSVal := .undef
  autoEnrichMode : JSVal := .undef
  autoEnrichEnabled : JSVal := .undef
  runUntilStopped : JSVal := .undef
  deriving DecidableEq

/-- The `typeof x === 'number' / string` branches shared by
`lastUploadMaxAgeDays` and `enrichLimit` in `normalizeDiscoverySettings`
(app.js:495-506 and 516-527): a positive number is floored, a non-blank string
is `Number`-parsed and floored if positive, everything else yields `null`. -/
def normalizePositiveIntField (nos : String → Option ℚ) : JSVal → Option Int
  | .num (some q) => if 0 < q then some ⌊q⌋ else none
  | .num none => none
  | .str s =>
    if s.trim ≠ "" then
      match nos s with
      | some q => if 0 < q then some ⌊q⌋ else none
      | none => none
    else none
  | _ => none

/-- `normalizeDiscoverySettings` (app.js:480-545). -/
def normalizeDiscoverySettings (nos : String → Option ℚ) (raw : RawSettings) :
    DiscoverySettings :=
  let defaults := defaultDiscoverySettingsState
  let keywordsText :=
    match raw.keywordsText with
    | .str s => s
    | _ =>
      match raw.keywords with
      | .strArr l => String.intercalate ", " l
      | _ => defaults.keywordsText
  let keywords := parseDiscoveryKeywords keywordsText
  let perKeyword : Int :=
    match jsNumber nos raw.perKeyword with
    | none => defaults.perKeyword
    | some q => if q ≤ 0 then defaults.perKeyword else max 1 ⌊q⌋
  let lastUploadMaxAgeDays := normalizePositiveIntField nos raw.lastUploadMaxAgeDays
  let denyLanguagesText :=
    match raw.denyLanguagesText with
    | .str s => s
    | _ =>
      match raw.denyLanguages with
      | .strArr l => String.intercalate ", " l
      | _ => ""
  let denyLanguages := parseDiscoveryDenyLanguages denyLanguagesText
  let enrichLimit := normalizePositiveIntField nos raw.enrichLimit
  let autoEnrichMode := if raw.autoEnrichMode = .str "full" then "full" else "email_only"
  let autoEnrichEnabled := jsTruthy raw.autoEnrichEnabled
  let runUntilStopped := jsTruthy raw.runUntilStopped
  { keywordsText := keywordsText
    keywords := keywords
    perKeyword := perKeyword
    lastUploadMaxAgeDays := lastUploadMaxAgeDays
    denyLanguagesText := denyLanguagesText
    denyLanguages := denyLanguages
    enrichLimit := enrichLimit
    autoEnrichEnabled := autoEnrichEnabled
    autoEnrichMode := autoEnrichMode
    runUntilStopped := runUntilStopped }

/-- The stored form of a normalized settings record after
`saveDiscoverySettings` (`JSON.stringify`, app.js:466-478) followed by
`JSON.parse` in `loadDiscoverySettings` (app.js:448-464).  All fields are
JSON-safe, so serialization round-trips each field to the corresponding
JavaScript value. -/
def discoverySettingsToStoredRaw (s : DiscoverySettings) : RawSettings :=
  { keywordsText := .str s.keywordsText
    keywords := .strArr s.keywords
    perKeyword := .num (some (s.perKeyword : ℚ))
    lastUploadMaxAgeDays :=
      match s.lastUploadMaxAgeDays with
      | none => .null
      | some d => .num (some (d : ℚ))
    denyLanguagesText := .str s.denyLanguagesText
    denyLanguages := .strArr s.denyLanguages
    enrichLimit :=
      match s.enrichLimit with
      | none => .null
      | some d => .num (some (d : ℚ))
    autoEnrichMode := .str s.autoEnrichMode
    autoEnrichEnabled := .bool s.autoEnrichEnabled
    runUntilStopped := .bool s.runUntilStopped }

/-- `loadDiscoverySettings` (app.js:448-464) applied to a previously saved
record: parse the stored JSON and re-normalize.  The `{...defaults, ...parsed}`
spread is the identity here because a stored record carries every field. -/
def loadStoredDiscoverySettings (nos : String → Option ℚ) (s : DiscoverySettings) :
    DiscoverySettings :=
  normalizeDiscoverySettings nos (discoverySettingsToStoredRaw s)

/-!
## The unique-email export filter

`applyUniqueEmailFilter` appears identically (modulo `for`/`forEach`) in the
two dashboard controller scripts (`unnamed/part_000:143-164` and
`unnamed/part_001:627-648`).  The e-mail regular-expression engine
(`text.match(EMAIL_REGEX)`) is a host collaborator and is passed in as the
parameter `em : String → List String` (`[]` models a `null` match result).
-/

/-- A channel row as consumed by the export filter: the raw `emails` text field
plus the remaining row data, kept opaque in `payload` (the code copies it
verbatim with an object spread). -/
structure ChannelRow (α : Type) where
  payload : α
  emails : Option String
  deriving DecidableEq

/-- `extractEmails` (part_000:135-141): empty/absent text gives no matches,
otherwise the regex matches are trimmed and blank entries dropped. -/
def extractEmails (em : String → List String) (text : String) : List String :=
  if text = "" then []
  else ((em text).map String.trim).filter (fun e => e ≠ "")

/-- The raw text handed to `extractEmails` for a row: `item.emails || ''`. -/
def rowEmailsText {α : Type} (item : ChannelRow α) : String :=
  item.emails.getD ""

/-- The inner loop of `applyUniqueEmailFilter` over one row's extracted
e-mails: keep an e-mail when its lower-cased key is not in `seen`, adding the
key to `seen`.  Returns the grown `seen` set (as a list) and the kept
e-mails in order. -/
def pickUnique (seen : List String) : List String → List String × List String
  | [] => (seen, [])
  | e :: rest =>
    if e.toLower ∈ seen then pickUnique seen rest
    else
      let p := pickUnique (e.toLower :: seen) rest
      (p.1, e :: p.2)

/-- The row loop of `applyUniqueEmailFilter`, threading the cross-row `seen`
set: rows with no extracted e-mails are skipped (without touching `seen`), rows
whose e-mails are all duplicates are dropped, and kept rows are re-emitted with
`emails` replaced by the comma-joined kept list. -/
def uniqueFilterGo {α : Type} (em : String → List String) (seen : List String) :
    List (ChannelRow α) → List (ChannelRow α)
  | [] => []
  | item :: rest =>
    let emails := extractEmails em (rowEmailsText item)
    if emails = [] then uniqueFilterGo em seen rest
    else
      let p := pickUnique seen emails
      if p.2 = [] then uniqueFilterGo em p.1 rest
      else { item with emails := some (String.intercalate ", " p.2) } :: uniqueFilterGo em p.1 rest

/-- `applyUniqueEmailFilter` (part_000:143-164 / part_001:627-648). -/
def applyUniqueEmailFilter {α : Type} (em : String → List String)
    (items : List (ChannelRow α)) : List (ChannelRow α) :=
  uniqueFilterGo em [] items

/-- Proof-side annotated variant of `uniqueFilterGo`: the same recursion, but
returning each kept row paired with the list of e-mails kept for it (before
joining).  Related to `uniqueFilterGo` by `uniqueFilterGo_eq_runs`. -/
def uniqueFilterRuns {α : Type} (em : String → List String) (seen : List String) :
    List (ChannelRow α) → List (ChannelRow α × List String)
  | [] => []
  | item :: rest =>
    let emails := extractEmails em (rowEmailsText item)
    if emails = [] then uniqueFilterRuns em seen rest
    else
      let p := pickUnique seen emails
      if p.2 = [] then uniqueFilterRuns em p.1 rest
      else (item, p.2) :: uniqueFilterRuns em p.1 rest

/-- Specification-level first-occurrence deduplication of a flat e-mail stream,
keyed by the lower-cased address: an e-mail is kept exactly when its key has
not been seen before, in which case the key is recorded. -/
def dedupByLowerFirst (seen : List String) : List String → List String
  | [] => []
  | e :: rest =>
    if e.toLower ∈ seen then dedupByLowerFirst seen rest
    else e :: dedupByLowerFirst (e.toLower :: seen) rest

/-!
## The `Dashboard` controller state (app.js:189-219)

The fields below model the orchestration-relevant instance fields of the
`Dashboard` class plus the status/progress/summary bars and the button-disable
flags it drives.  The persisted `discoverySettings` record is represented by
the three fields the orchestration logic reads (`autoEnrichEnabled`,
`autoEnrichMode`, `enrichLimit`); `discoveryLoopStats` is split into
`loopRuns`/`loopFound`.  Purely presentational state (tables, dropdowns,
pagination) is not modelled.
-/

/-- The completion record queued by `queueDiscoveryLoopCompletion`
(app.js:1655-1665) and sent by `tryFinalizeDiscoveryLoop`. -/
structure CompletionPayload where
  runs : Nat
  discovered : Nat
  reason : Option String
  error : Bool
  message : Option String
  deriving DecidableEq, Repr

/-- The `discoveryLoop` part of a polled stats response
(`stats.discoveryLoop`), as read by `maybeRefreshAfterLoop`.  `version = none`
models a missing/non-number `version` field. -/
structure LoopView where
  running : Bool
  lastCompletedAt : Option String
  lastReason : Option String
  version : Option Int
  deriving DecidableEq, Repr

/-- `stats.discoveryLoop || {}`: every read of the empty object is falsy. -/
def emptyLoopView : LoopView :=
  { running := false, lastCompletedAt := none, lastReason := none, version := none }

/-- A polled stats response, reduced to the fields `maybeRefreshAfterLoop`
reads.  `processing` and `activeJobs` carry the already-coerced values of
`Number(statusTotals.processing ?? 0) || 0` and
`Number(enrichment.activeJobs ?? 0) || 0`. -/
structure StatsView where
  discoveryLoop : Option LoopView
  processing : Int
  activeJobs : Int
  deriving DecidableEq, Repr

/-- A successfully submitted enrichment start (`startEnrichment(mode,
limitValue, options)` resolving): the mode and limit the job was started
with. -/
structure StartedJob where
  mode : String
  limit : Option Int
  deriving DecidableEq, Repr

/-- The orchestration state of the `Dashboard` instance. -/
structure Dashboard where
  enrichmentBusy : Bool
  discoveryLoopActive : Bool
  discoveryLoopStopping : Bool
  loopRuns : Nat
  loopFound : Nat
  pendingAutoEnrich : Int
  autoEnrichQueuedNotified : Bool
  autoEnrichEnabled : Bool
  autoEnrichMode : String
  enrichLimit : Option Int
  lastLoopCompletionVersion : Option Int
  discoveryLoopCompletionPayload : Option CompletionPayload
  finalizingDiscoveryLoop : Bool
  discoveryLoopCompletionSent : Bool
  statusMessage : Option String
  statusTone : String
  progressMessage : Option String
  summaryMessage : Option String
  eventSourceOpen : Bool
  enrichBtnDisabled : Bool
  discoverBtnDisabled : Bool
  stopBtnDisabled : Bool
  deriving DecidableEq, Repr

/-- The `Dashboard` constructor state (app.js:189-219), with the settings
fields at their defaults (app.js:174-187). -/
def newDashboard : Dashboard :=
  { enrichmentBusy := false
    discoveryLoopActive := false
    discoveryLoopStopping := false
    loopRuns := 0
    loopFound := 0
    pendingAutoEnrich := 0
    autoEnrichQueuedNotified := false
    autoEnrichEnabled := false
    autoEnrichMode := "email_only"
    enrichLimit := none
    lastLoopCompletionVersion := none
    discoveryLoopCompletionPayload := none
    finalizingDiscoveryLoop := false
    discoveryLoopCompletionSent := false
    statusMessage := none
    statusTone := "info"
    progressMessage := none
    summaryMessage := none
    eventSourceOpen := false
    enrichBtnDisabled := false
    discoverBtnDisabled := false
    stopBtnDisabled := false }

/-- `updateStatusBar(message, tone)` (app.js:967-984), state effect only. -/
def updateStatusBar (s : Dashboard) (message : String) (tone : String) : Dashboard :=
  { s with statusMessage := some message, statusTone := tone }

/-- `maybeRefreshAfterLoop(stats)` (app.js:927-965).  Returns the new state and
whether a data refresh plus completion notification was triggered.  `now`
models `Date.now()`, used only when the polled loop view has no numeric
`version`. -/
def maybeRefreshAfterLoop (s : Dashboard) (stats : Option StatsView) (now : Int) :
    Dashboard × Bool :=
  match stats with
  | none => (s, false)
  | some st =>
    let loop := st.discoveryLoop.getD emptyLoopView
    if loop.running then (s, false)
    else if loop.lastCompletedAt.getD "" = "" then (s, false)
    else if 0 < st.processing ∨ 0 < st.activeJobs then (s, false)
    else if loop.version ≠ none ∧ loop.version = s.lastLoopCompletionVersion then (s, false)
    else
      let s := { s with lastLoopCompletionVersion := some (loop.version.getD now) }
      let mt : String × String :=
        if loop.lastReason = some "stopped" then
          ("Discovery loop stopped. Data refreshed.", "success")
        else if loop.lastReason = some "completed" then
          ("Discovery loop completed. Data refreshed.", "success")
        else if loop.lastReason = some "error" then
          ("Discovery loop ended with errors. Data refreshed.", "error")
        else ("Discovery loop finished. Data refreshed.", "success")
      (updateStatusBar s mt.1 mt.2, true)

/-- `loadStats()` (app.js:1014-1036) with the fetch outcome made explicit
(`fetched = none` models a rejected `fetchStats()`).  The `statsPromise`
single-flight guard collapses overlapping calls into one; in this sequential
model calls are already serialized.  Returns whether a loop refresh fired. -/
def loadStats (s : Dashboard) (fetched : Option StatsView) (now : Int) :
    Dashboard × Bool :=
  match fetched with
  | none => (updateStatusBar s "Failed to load statistics." "error", false)
  | some st => maybeRefreshAfterLoop s (some st) now

/-- `stopDiscoveryLoop()` (app.js:1860-1874).  The trailing
`notifyDiscoveryLoopStop()` call has no client-state effect (errors are
swallowed). -/
def stopDiscoveryLoop (s : Dashboard) : Dashboard :=
  if ¬ s.discoveryLoopActive ∨ s.discoveryLoopStopping then s
  else
    updateStatusBar
      { s with discoveryLoopStopping := true, stopBtnDisabled := true }
      "Stopping discovery after current run…" "info"

/-- `n` successive `stopDiscoveryLoop()` invocations. -/
def applyStops (s : Dashboard) : Nat → Dashboard
  | 0 => s
  | n + 1 => applyStops (stopDiscoveryLoop s) n

/-- `tryFinalizeDiscoveryLoop`'s possible outcomes: no payload queued, deferral
while the loop/enrichment is still active, re-entrancy guard hit, payload sent,
or a retry scheduled (`setTimeout(..., 3000)`) after a failed notification. -/
inductive FinalizeOutcome where
  | noPayload
  | deferred
  | alreadyFinalizing
  | sent (request : CompletionPayload)
  | retryScheduled (delayMs : Nat)
  deriving DecidableEq, Repr

/-- `tryFinalizeDiscoveryLoop()` (app.js:1667-1702).  `notifyOk` is the outcome
of the awaited `notifyDiscoveryLoopComplete` call.  `finalizingDiscoveryLoop`
is raised for the duration of the call and lowered in the `finally` block, so
on every exit path it equals its entry value; the re-entrancy branch models a
call arriving while a previous one is in flight. -/
def tryFinalizeDiscoveryLoop (s : Dashboard) (notifyOk : Bool) :
    Dashboard × FinalizeOutcome :=
  match s.discoveryLoopCompletionPayload with
  | none => (s, .noPayload)
  | some p =>
    if s.discoveryLoopActive ∨ s.enrichmentBusy ∨ 0 < s.pendingAutoEnrich then
      (s, .deferred)
    else if s.finalizingDiscoveryLoop then (s, .alreadyFinalizing)
    else if notifyOk then
      ({ s with discoveryLoopCompletionPayload := none,
                discoveryLoopCompletionSent := true }, .sent p)
    else (s, .retryScheduled 3000)

/-- `queueDiscoveryLoopCompletion(payload)` (app.js:1655-1665).  The stored
record re-coerces the payload fields; on the values produced by the loop
(`Nat` counters, a non-empty reason literal) the coercions are the
identity. -/
def queueDiscoveryLoopCompletion (s : Dashboard) (p : CompletionPayload)
    (notifyOk : Bool) : Dashboard × FinalizeOutcome :=
  tryFinalizeDiscoveryLoop
    { s with discoveryLoopCompletionPayload := some p,
             discoveryLoopCompletionSent := false }
    notifyOk

/-- A sequence of `tryFinalizeDiscoveryLoop` invocations (the initial call plus
the `setTimeout` retries), one notification outcome per invocation. -/
def retryFinalize (s : Dashboard) : List Bool → Dashboard × List FinalizeOutcome
  | [] => (s, [])
  | ok :: rest =>
    let r := tryFinalizeDiscoveryLoop s ok
    let t := retryFinalize r.1 rest
    (t.1, r.2 :: t.2)

/-- The `try`-block tail of `handleEnrich` (app.js:1555-1601) once validation
has passed: mark the job busy, then either record the started job and open the
event stream (`startEnrichment` resolved) or roll back and, for auto-triggered
requests with a positive limit, re-queue the count (`startEnrichment`
rejected). -/
def handleEnrichStart (s : Dashboard) (mode : String) (limitValue : Option Int)
    (autoTriggered : Bool) (startOk : Bool) : Dashboard × Option StartedJob :=
  let s := { s with enrichmentBusy := true, autoEnrichQueuedNotified := false,
                    enrichBtnDisabled := true }
  if startOk then
    let s := updateStatusBar s
      (if autoTriggered then "Auto-enrich job started." else "Enrichment job started.")
      "success"
    let s := { s with summaryMessage := none }
    let s := { s with progressMessage := some "Job queued…", eventSourceOpen := true }
    (s, some { mode := mode, limit := limitValue })
  else
    let s := { s with enrichmentBusy := false, enrichBtnDisabled := false }
    let s :=
      match limitValue with
      | some v =>
        if autoTriggered ∧ 0 < v then
          { s with pendingAutoEnrich := s.pendingAutoEnrich + v,
                   autoEnrichQueuedNotified := false }
        else s
      | none => s
    (updateStatusBar s "Failed to start enrichment." "error", none)

/-- `handleEnrich(mode, overrides)` (app.js:1539-1602).  A busy coordinator
ignores the request outright (the leading `closeDropdown` only touches the
unmodelled dropdown view state).  The effective limit falls back to the
persisted `enrichLimit` and must be positive when present. -/
def handleEnrich (s : Dashboard) (mode : String) (limitOverride : Option Int)
    (autoTriggered : Bool) (startOk : Bool) : Dashboard × Option StartedJob :=
  if s.enrichmentBusy then (s, none)
  else
    let limitValue :=
      match limitOverride with
      | some v => some v
      | none => s.enrichLimit
    match limitValue with
    | some v =>
      if v ≤ 0 then
        (updateStatusBar s "Enrichment limit must be a positive number." "error", none)
      else handleEnrichStart s mode (some v) autoTriggered startOk
    | none => handleEnrichStart s mode none autoTriggered startOk

/-- `triggerAutoEnrich(newChannelsCount)` (app.js:1608-1627).  `count` is the
already-coerced `Number(newChannelsCount) || 0`. -/
def triggerAutoEnrich (s : Dashboard) (count : Int) (startOk : Bool) :
    Dashboard × Option StartedJob :=
  if count ≤ 0 then (s, none)
  else if ¬ s.autoEnrichEnabled then ({ s with pendingAutoEnrich := 0 }, none)
  else if s.enrichmentBusy then
    let s := { s with pendingAutoEnrich := s.pendingAutoEnrich + count }
    let s :=
      if ¬ s.autoEnrichQueuedNotified then
        { updateStatusBar s "Auto-enrich queued until the current enrichment finishes." "info"
            with autoEnrichQueuedNotified := true }
      else s
    (s, none)
  else
    let mode := if s.autoEnrichMode = "full" then "full" else "email_only"
    handleEnrich s mode (some count) true startOk

/-- `processPendingAutoEnrich()` (app.js:1629-1642). -/
def processPendingAutoEnrich (s : Dashboard) (startOk : Bool) :
    Dashboard × Option StartedJob :=
  if s.pendingAutoEnrich ≤ 0 then ({ s with pendingAutoEnrich := 0 }, none)
  else if ¬ s.autoEnrichEnabled then ({ s with pendingAutoEnrich := 0 }, none)
  else
    let queued := s.pendingAutoEnrich
    triggerAutoEnrich
      { s with pendingAutoEnrich := 0, autoEnrichQueuedNotified := false }
      queued startOk

/-- The `payload.done` branch of the enrichment event stream handler
(app.js:1997-2032): close the stream, clear the busy flag and buttons, post
the summary, reload stats/tables, then drain any queued auto-enrich request
and attempt the deferred loop finalization.  `statsFetched`/`now` feed the
inner `loadStats`, `startOk` the potential queued auto-enrich start, and
`notifyOk` the potential `notifyDiscoveryLoopComplete` call.  Returns the
auto-enrich job started from the queue, if any. -/
def handleDoneEvent (s : Dashboard) (statsFetched : Option StatsView) (now : Int)
    (startOk : Bool) (notifyOk : Bool) : Dashboard × Option StartedJob :=
  let s := { s with eventSourceOpen := false, enrichmentBusy := false,
                    enrichBtnDisabled := false, progressMessage := none }
  let s := { s with summaryMessage := some "Enrichment job completed." }
  let s := (loadStats s statsFetched now).1
  let s := { s with autoEnrichQueuedNotified := false }
  let r := processPendingAutoEnrich s startOk
  let s := (tryFinalizeDiscoveryLoop r.1 notifyOk).1
  (s, r.2)

/-!
## The discovery loop (app.js:1774-1858)

One iteration of the `while (!this.discoveryLoopStopping)` loop awaits
`performDiscoveryRun` (app.js:1506-1537), updates the counters, reports
progress, and waits 2 s unless a stop was requested.  A `RunEvent` supplies
everything the environment decides during one iteration: the discovery
response (`none` = the run failed and `performDiscoveryRun` returned `null`),
the stats fetched by the run's inner `loadStats`, the outcome of a potential
auto-enrich start, and how many times `stopDiscoveryLoop()` was invoked while
the run (resp. the inter-run delay) was awaited.
-/

/-- The environment's choices for one iteration of the discovery loop. -/
structure RunEvent where
  found : Option Nat
  statsFetched : Option StatsView
  now : Int
  autoStartOk : Bool
  stopsDuringRun : Nat
  stopsDuringWait : Nat
  deriving Repr

/-- A successful run event with no concurrent stop request. -/
def cleanRun (found : Nat) : RunEvent :=
  { found := some found, statsFetched := none, now := 0, autoStartOk := true,
    stopsDuringRun := 0, stopsDuringWait := 0 }

/-- A successful run during which `stopDiscoveryLoop()` was invoked `n`
times. -/
def stoppedRun (found : Nat) (n : Nat) : RunEvent :=
  { cleanRun found with stopsDuringRun := n }

/-- A failed run (`performDiscoveryRun` returned `null`). -/
def failedRun : RunEvent :=
  { found := none, statsFetched := none, now := 0, autoStartOk := true,
    stopsDuringRun := 0, stopsDuringWait := 0 }

/-- The result of `startDiscoveryLoop`: rejected because the loop was already
running, rejected for missing inputs, exited with the completion payload that
was queued (plus the immediate finalization outcome), or still running when
the supplied event trace ran out. -/
inductive StartOutcome where
  | alreadyRunning (s : Dashboard)
  | invalidInputs (s : Dashboard)
  | exited (s : Dashboard) (queued : CompletionPayload) (fin : FinalizeOutcome)
  | stillRunning (s : Dashboard)
  deriving Repr

/-- The queued completion payload of an exited loop, if it exited. -/
def StartOutcome.queued : StartOutcome → Option CompletionPayload
  | .exited _ q _ => some q
  | _ => none

/-- The dashboard state embedded in a `StartOutcome`. -/
def StartOutcome.state : StartOutcome → Dashboard
  | .alreadyRunning s => s
  | .invalidInputs s => s
  | .exited s _ _ => s
  | .stillRunning s => s

/-- `setDiscoveryLoopRunningState(running)` (app.js:1876-1897): the active
flag, the start button, and the stop button (re-enabled in both branches). -/
def setDiscoveryLoopRunningState (s : Dashboard) (running : Bool) : Dashboard :=
  { s with discoveryLoopActive := running, discoverBtnDisabled := running,
           stopBtnDisabled := false }

/-- The `finally` block of `startDiscoveryLoop` (app.js:1827-1857): capture the
stop flag and counters, reset the stopping flag, leave the Running state, post
the exit notice (unless the loop ended in error), and queue the completion
record with reason `error` / `stopped` / `completed`. -/
def exitLoop (s : Dashboard) (loopError : Bool) (notifyOk : Bool) : StartOutcome :=
  let stopRequested := s.discoveryLoopStopping
  let finalRuns := s.loopRuns
  let finalFound := s.loopFound
  let s := { s with discoveryLoopStopping := false }
  let s := setDiscoveryLoopRunningState s false
  let s :=
    if ¬ loopError then
      if 0 < finalRuns then
        updateStatusBar s
          ("Discovery loop stopped after " ++ toString finalRuns ++ " runs with "
            ++ toString finalFound ++ " new channels.") "info"
      else updateStatusBar s "Discovery loop stopped." "info"
    else s
  let completionReason := if loopError then "error" else if stopRequested then "stopped" else "completed"
  let payload : CompletionPayload :=
    { runs := finalRuns, discovered := finalFound, reason := some completionReason,
      error := loopError, message := none }
  let r := queueDiscoveryLoopCompletion s payload notifyOk
  .exited r.1 payload r.2

/-- One pass of the `while` body (app.js:1799-1826): the stop check at the
top of the loop, one awaited `performDiscoveryRun` (status update, inner
`loadStats`, `triggerAutoEnrich`; status-bar text abbreviates the formatted
counts), the counter updates, and the two stop checks around the inter-run
delay.  Yields either the loop's exit outcome (`inl`) or the state for the
next iteration (`inr`). -/
def discoveryLoopIter (notifyOk : Bool) (s : Dashboard) (ev : RunEvent) :
    StartOutcome ⊕ Dashboard :=
  if s.discoveryLoopStopping then .inl (exitLoop s false notifyOk)
  else
    let label := "Run #" ++ toString (s.loopRuns + 1)
    let s := updateStatusBar s (label ++ ": Starting discovery…") "info"
    let s := applyStops s ev.stopsDuringRun
    match ev.found with
    | none =>
      let s := updateStatusBar s (label ++ ": Discovery failed.") "error"
      .inl (exitLoop s true notifyOk)
    | some found =>
      let s := (loadStats s ev.statsFetched ev.now).1
      let s := (triggerAutoEnrich s (found : Int) ev.autoStartOk).1
      let s := { s with loopRuns := s.loopRuns + 1, loopFound := s.loopFound + found }
      let s := updateStatusBar s
        (label ++ ": Discovered " ++ toString found ++ " new channels. Total discovered: "
          ++ toString s.loopFound ++ ".") "success"
      if s.discoveryLoopStopping then .inl (exitLoop s false notifyOk)
      else
        let s := applyStops s ev.stopsDuringWait
        if s.discoveryLoopStopping then .inl (exitLoop s false notifyOk)
        else .inr s

/-- The discovery loop proper (app.js:1799-1826), consuming one `RunEvent` per
iteration; concurrent `stopDiscoveryLoop()` invocations are applied at the
run's await points.  If the event trace is exhausted while the loop would
continue, the loop is still running. -/
def runDiscoveryLoop (notifyOk : Bool) : Dashboard → List RunEvent → StartOutcome
  | s, [] =>
    if s.discoveryLoopStopping then exitLoop s false notifyOk else .stillRunning s
  | s, ev :: rest =>
    match discoveryLoopIter notifyOk s ev with
    | .inl out => out
    | .inr s' => runDiscoveryLoop notifyOk s' rest

/-- `startDiscoveryLoop(initialInputs)` (app.js:1774-1858).  `haveInputs`
models `collectDiscoveryInputsFromSettings()` returning a usable inputs object;
`notifyDiscoveryLoopStart` and `reportDiscoveryLoopProgress` have no client
state effect (errors are swallowed). -/
def startDiscoveryLoop (s : Dashboard) (haveInputs : Bool) (events : List RunEvent)
    (notifyOk : Bool) : StartOutcome :=
  if s.discoveryLoopActive then
    .alreadyRunning (updateStatusBar s "Discovery loop is already running." "info")
  else if ¬ haveInputs then .invalidInputs s
  else
    let s := { s with loopRuns := 0, loopFound := 0, discoveryLoopStopping := false,
                      discoveryLoopCompletionPayload := none,
                      discoveryLoopCompletionSent := false,
                      finalizingDiscoveryLoop := false }
    let s := setDiscoveryLoopRunningState s true
    let s := updateStatusBar s "Discovery loop started. Click stop to finish." "info"
    runDiscoveryLoop notifyOk s events

/-- A sequence of `triggerAutoEnrich` invocations (one per discovery run that
found new channels), collecting every enrichment start they submit. -/
def queueTriggers : Dashboard → List Int → Dashboard × List StartedJob
  | s, [] => (s, [])
  | s, c :: cs =>
    let r := triggerAutoEnrich s c true
    let t := queueTriggers r.1 cs
    (t.1, r.2.toList ++ t.2)

/-!
## Concrete fixtures used by witnesses and counterexamples
-/

/-- A string-to-number host parser that parses nothing (every string is
`NaN`); the fixture inputs below never rely on string parsing. -/
def nosNone : String → Option ℚ := fun _ => none

/-- A raw settings object whose `lastUploadMaxAgeDays` is the number `0.5`
(written as the reduced fraction `1/2` so that it evaluates by `rfl`). -/
def rawHalfDay : RawSettings :=
  { keywordsText := .str "crypto", lastUploadMaxAgeDays := .num (some (Rat.mk' 1 2)) }

/-- A well-behaved raw settings object (integral numerics). -/
def rawIntegral : RawSettings :=
  { keywordsText := .str "crypto, defi", perKeyword := .num (some 3),
    lastUploadMaxAgeDays := .num (some 7), enrichLimit := .null,
    autoEnrichMode := .str "full", autoEnrichEnabled := .bool true,
    runUntilStopped := .bool false }

/-- A dashboard with a manual enrichment job in flight. -/
def busyDashboard : Dashboard :=
  { newDashboard with enrichmentBusy := true }

/-- A dashboard with a manual enrichment job in flight and auto-enrich
enabled. -/
def busyAutoDashboard : Dashboard :=
  { newDashboard with enrichmentBusy := true, autoEnrichEnabled := true }

/-- A dashboard whose discovery loop is running. -/
def activeLoopDashboard : Dashboard :=
  { newDashboard with discoveryLoopActive := true }

/-- A sample queued loop-completion payload. -/
def samplePayload : CompletionPayload :=
  { runs := 2, discovered := 4, reason := some "stopped", error := false, message := none }

/-- A dashboard holding a queued completion payload while an enrichment job is
still in flight. -/
def pendingCompletionDashboard : Dashboard :=
  { newDashboard with enrichmentBusy := true,
                      discoveryLoopCompletionPayload := some samplePayload }

/-- A dashboard holding a queued completion payload with everything settled. -/
def settledCompletionDashboard : Dashboard :=
  { newDashboard with discoveryLoopCompletionPayload := some samplePayload }

/-- A polled stats view reporting a finished loop with version 7. -/
def sampleStats : StatsView :=
  { discoveryLoop := some { running := false, lastCompletedAt := some "2026-01-01",
                            lastReason := some "stopped", version := some 7 },
    processing := 0, activeJobs := 0 }

/-- A host e-mail matcher for fixtures: the whole text is one match. -/
def emWhole : String → List String := fun s => [s]

/-- A host e-mail matcher for fixtures that matches nothing (`text.match`
returned `null` for every row). -/
def emNoMatch : String → List String := fun _ => []

/-- Input rows for the unique-email filter fixture: the second row repeats the
first row's address with different capitalization. -/
def sampleRows : List (ChannelRow Nat) :=
  [{ payload := 1, emails := some "a@b.com" },
   { payload := 2, emails := some "A@B.COM" },
   { payload := 3, emails := none },
   { payload := 4, emails := some "c@d.org" }]

/-- Proof-side description of the state after one successful discovery-loop
iteration with no concurrent stop request (one `cleanRun` event): the status
updates, the run's inner `loadStats` and `triggerAutoEnrich`, and the counter
increments of app.js:1800-1818. -/
def cleanStepState (s : Dashboard) (f : Nat) : Dashboard :=
  let label := "Run #" ++ toString (s.loopRuns + 1)
  let s1 := updateStatusBar s (label ++ ": Starting discovery…") "info"
  let s2 := (loadStats s1 none 0).1
  let s3 := (triggerAutoEnrich s2 (f : Int) true).1
  let s4 := { s3 with loopRuns := s3.loopRuns + 1, loopFound := s3.loopFound + f }
  updateStatusBar s4
    (label ++ ": Discovered " ++ toString f ++ " new channels. Total discovered: "
      ++ toString s4.loopFound ++ ".") "success"

/-- The state after a prefix of successful, stop-free discovery-loop
iterations. -/
def cleanAdvance : Dashboard → List Nat → Dashboard
  | s, [] => s
  | s, f :: fs => cleanAdvance (cleanStepState s f) fs

/-- The state `startDiscoveryLoop` enters the loop with: counters reset,
completion state cleared, Running entered, start notice posted. -/
def loopEntryState (s : Dashboard) : Dashboard :=
  updateStatusBar
    (setDiscoveryLoopRunningState
      { s with loopRuns := 0, loopFound := 0, discoveryLoopStopping := false,
               discoveryLoopCompletionPayload := none,
               discoveryLoopCompletionSent := false,
               finalizingDiscoveryLoop := false } true)
    "Discovery loop started. Click stop to finish." "info"


/-!
## Helper lemmas
-/

theorem stopDiscoveryLoop_idem (s : Dashboard) :
    stopDiscoveryLoop (stopDiscoveryLoop s) = stopDiscoveryLoop s := by
  unfold stopDiscoveryLoop updateStatusBar
  cases ha : s.discoveryLoopActive <;> cases hs : s.discoveryLoopStopping <;> simp [ha, hs]

@[simp] theorem applyStops_zero (s : Dashboard) : applyStops s 0 = s := rfl

theorem applyStops_pos (n : Nat) : ∀ s : Dashboard,
    applyStops s (n + 1) = stopDiscoveryLoop s := by
  induction n with
  | zero => intro s; rfl
  | succ m ih =>
    intro s
    show applyStops (stopDiscoveryLoop s) (m + 1) = stopDiscoveryLoop s
    rw [ih, stopDiscoveryLoop_idem]

theorem maybeRefreshAfterLoop_core (s : Dashboard) (stats : Option StatsView) (now : Int) :
    ((maybeRefreshAfterLoop s stats now).1.discoveryLoopActive = s.discoveryLoopActive
      ∧ (maybeRefreshAfterLoop s stats now).1.discoveryLoopStopping = s.discoveryLoopStopping
      ∧ (maybeRefreshAfterLoop s stats now).1.loopRuns = s.loopRuns
      ∧ (maybeRefreshAfterLoop s stats now).1.loopFound = s.loopFound)
    ∧ ((maybeRefreshAfterLoop s stats now).1.enrichmentBusy = s.enrichmentBusy
      ∧ (maybeRefreshAfterLoop s stats now).1.pendingAutoEnrich = s.pendingAutoEnrich
      ∧ (maybeRefreshAfterLoop s stats now).1.autoEnrichEnabled = s.autoEnrichEnabled
      ∧ (maybeRefreshAfterLoop s stats now).1.autoEnrichMode = s.autoEnrichMode
      ∧ (maybeRefreshAfterLoop s stats now).1.enrichLimit = s.enrichLimit)
    ∧ ((maybeRefreshAfterLoop s stats now).1.discoveryLoopCompletionPayload
          = s.discoveryLoopCompletionPayload
      ∧ (maybeRefreshAfterLoop s stats now).1.finalizingDiscoveryLoop
          = s.finalizingDiscoveryLoop
      ∧ (maybeRefreshAfterLoop s stats now).1.discoveryLoopCompletionSent
          = s.discoveryLoopCompletionSent) := by
  cases stats with
  | none => simp [maybeRefreshAfterLoop]
  | some st =>
    simp only [maybeRefreshAfterLoop]
    split_ifs <;> simp [updateStatusBar]

theorem loadStats_core (s : Dashboard) (fetched : Option StatsView) (now : Int) :
    ((loadStats s fetched now).1.discoveryLoopActive = s.discoveryLoopActive
      ∧ (loadStats s fetched now).1.discoveryLoopStopping = s.discoveryLoopStopping
      ∧ (loadStats s fetched now).1.loopRuns = s.loopRuns
      ∧ (loadStats s fetched now).1.loopFound = s.loopFound)
    ∧ ((loadStats s fetched now).1.enrichmentBusy = s.enrichmentBusy
      ∧ (loadStats s fetched now).1.pendingAutoEnrich = s.pendingAutoEnrich
      ∧ (loadStats s fetched now).1.autoEnrichEnabled = s.autoEnrichEnabled
      ∧ (loadStats s fetched now).1.autoEnrichMode = s.autoEnrichMode
      ∧ (loadStats s fetched now).1.enrichLimit = s.enrichLimit)
    ∧ ((loadStats s fetched now).1.discoveryLoopCompletionPayload
          = s.discoveryLoopCompletionPayload
      ∧ (loadStats s fetched now).1.finalizingDiscoveryLoop = s.finalizingDiscoveryLoop
      ∧ (loadStats s fetched now).1.discoveryLoopCompletionSent
          = s.discoveryLoopCompletionSent) := by
  cases fetched with
  | none => unfold loadStats updateStatusBar; simp
  | some st => exact maybeRefreshAfterLoop_core s (some st) now

theorem handleEnrichStart_loop (s : Dashboard) (mode : String) (limitValue : Option Int)
    (autoTriggered : Bool) (startOk : Bool) :
    (handleEnrichStart s mode limitValue autoTriggered startOk).1.discoveryLoopActive
        = s.discoveryLoopActive
    ∧ (handleEnrichStart s mode limitValue autoTriggered startOk).1.discoveryLoopStopping
        = s.discoveryLoopStopping
    ∧ (handleEnrichStart s mode limitValue autoTriggered startOk).1.loopRuns = s.loopRuns
    ∧ (handleEnrichStart s mode limitValue autoTriggered startOk).1.loopFound = s.loopFound := by
  unfold handleEnrichStart updateStatusBar
  cases startOk <;> cases limitValue <;> simp [apply_ite]

theorem handleEnrich_loop (s : Dashboard) (mode : String) (limitOverride : Option Int)
    (autoTriggered : Bool) (startOk : Bool) :
    (handleEnrich s mode limitOverride autoTriggered startOk).1.discoveryLoopActive
        = s.discoveryLoopActive
    ∧ (handleEnrich s mode limitOverride autoTriggered startOk).1.discoveryLoopStopping
        = s.discoveryLoopStopping
    ∧ (handleEnrich s mode limitOverride autoTriggered startOk).1.loopRuns = s.loopRuns
    ∧ (handleEnrich s mode limitOverride autoTriggered startOk).1.loopFound = s.loopFound := by
  unfold handleEnrich
  split_ifs with h
  · simp
  · cases hl : (match limitOverride with
      | some v => some v
      | none => s.enrichLimit : Option Int) with
    | none => simpa using handleEnrichStart_loop s mode none autoTriggered startOk
    | some v =>
      by_cases hv : v ≤ 0
      · simp [hv, updateStatusBar]
      · simpa [hv] using handleEnrichStart_loop s mode (some v) autoTriggered startOk

theorem triggerAutoEnrich_loop (s : Dashboard) (count : Int) (startOk : Bool) :
    (triggerAutoEnrich s count startOk).1.discoveryLoopActive = s.discoveryLoopActive
    ∧ (triggerAutoEnrich s count startOk).1.discoveryLoopStopping = s.discoveryLoopStopping
    ∧ (triggerAutoEnrich s count startOk).1.loopRuns = s.loopRuns
    ∧ (triggerAutoEnrich s count startOk).1.loopFound = s.loopFound := by
  unfold triggerAutoEnrich updateStatusBar
  split_ifs with h1 h2 h3 h4
  · simp
  · cases hn : s.autoEnrichQueuedNotified <;> simp [hn]
  · exact handleEnrich_loop s "full" (some count) true startOk
  · exact handleEnrich_loop s "email_only" (some count) true startOk
  · simp


@[simp] theorem loadStats_active (s : Dashboard) (f : Option StatsView) (now : Int) :
    (loadStats s f now).1.discoveryLoopActive = s.discoveryLoopActive :=
  (loadStats_core s f now).1.1

@[simp] theorem loadStats_stopping (s : Dashboard) (f : Option StatsView) (now : Int) :
    (loadStats s f now).1.discoveryLoopStopping = s.discoveryLoopStopping :=
  (loadStats_core s f now).1.2.1

@[simp] theorem loadStats_runs (s : Dashboard) (f : Option StatsView) (now : Int) :
    (loadStats s f now).1.loopRuns = s.loopRuns :=
  (loadStats_core s f now).1.2.2.1

@[simp] theorem loadStats_found (s : Dashboard) (f : Option StatsView) (now : Int) :
    (loadStats s f now).1.loopFound = s.loopFound :=
  (loadStats_core s f now).1.2.2.2

@[simp] theorem loadStats_busy (s : Dashboard) (f : Option StatsView) (now : Int) :
    (loadStats s f now).1.enrichmentBusy = s.enrichmentBusy :=
  (loadStats_core s f now).2.1.1

@[simp] theorem loadStats_pending (s : Dashboard) (f : Option StatsView) (now : Int) :
    (loadStats s f now).1.pendingAutoEnrich = s.pendingAutoEnrich :=
  (loadStats_core s f now).2.1.2.1

@[simp] theorem loadStats_enabled (s : Dashboard) (f : Option StatsView) (now : Int) :
    (loadStats s f now).1.autoEnrichEnabled = s.autoEnrichEnabled :=
  (loadStats_core s f now).2.1.2.2.1

@[simp] theorem loadStats_mode (s : Dashboard) (f : Option StatsView) (now : Int) :
    (loadStats s f now).1.autoEnrichMode = s.autoEnrichMode :=
  (loadStats_core s f now).2.1.2.2.2.1

@[simp] theorem loadStats_limit (s : Dashboard) (f : Option StatsView) (now : Int) :
    (loadStats s f now).1.enrichLimit = s.enrichLimit :=
  (loadStats_core s f now).2.1.2.2.2.2

@[simp] theorem loadStats_payload (s : Dashboard) (f : Option StatsView) (now : Int) :
    (loadStats s f now).1.discoveryLoopCompletionPayload = s.discoveryLoopCompletionPayload :=
  (loadStats_core s f now).2.2.1

@[simp] theorem loadStats_finalizing (s : Dashboard) (f : Option StatsView) (now : Int) :
    (loadStats s f now).1.finalizingDiscoveryLoop = s.finalizingDiscoveryLoop :=
  (loadStats_core s f now).2.2.2.1

@[simp] theorem loadStats_sent (s : Dashboard) (f : Option StatsView) (now : Int) :
    (loadStats s f now).1.discoveryLoopCompletionSent = s.discoveryLoopCompletionSent :=
  (loadStats_core s f now).2.2.2.2

@[simp] theorem triggerAutoEnrich_active (s : Dashboard) (count : Int) (startOk : Bool) :
    (triggerAutoEnrich s count startOk).1.discoveryLoopActive = s.discoveryLoopActive :=
  (triggerAutoEnrich_loop s count startOk).1

@[simp] theorem triggerAutoEnrich_stopping (s : Dashboard) (count : Int) (startOk : Bool) :
    (triggerAutoEnrich s count startOk).1.discoveryLoopStopping = s.discoveryLoopStopping :=
  (triggerAutoEnrich_loop s count startOk).2.1

@[simp] theorem triggerAutoEnrich_runs (s : Dashboard) (count : Int) (startOk : Bool) :
    (triggerAutoEnrich s count startOk).1.loopRuns = s.loopRuns :=
  (triggerAutoEnrich_loop s count startOk).2.2.1

@[simp] theorem triggerAutoEnrich_found (s : Dashboard) (count : Int) (startOk : Bool) :
    (triggerAutoEnrich s count startOk).1.loopFound = s.loopFound :=
  (triggerAutoEnrich_loop s count startOk).2.2.2

@[simp] theorem queued_exited (s : Dashboard) (q : CompletionPayload) (f : FinalizeOutcome) :
    (StartOutcome.exited s q f).queued = some q := rfl

/-- The completion payload queued by the loop exit path is built from the
exiting state's counters and flags. -/
theorem exitLoop_queued (s : Dashboard) (loopError notifyOk : Bool) :
    (exitLoop s loopError notifyOk).queued
      = some { runs := s.loopRuns, discovered := s.loopFound,
               reason := some (if loopError then "error"
                               else if s.discoveryLoopStopping then "stopped" else "completed"),
               error := loopError, message := none } := rfl

@[simp] theorem cleanStepState_active (s : Dashboard) (f : Nat) :
    (cleanStepState s f).discoveryLoopActive = s.discoveryLoopActive := by
  simp [cleanStepState, updateStatusBar]

@[simp] theorem cleanStepState_stopping (s : Dashboard) (f : Nat) :
    (cleanStepState s f).discoveryLoopStopping = s.discoveryLoopStopping := by
  simp [cleanStepState, updateStatusBar]

@[simp] theorem cleanStepState_runs (s : Dashboard) (f : Nat) :
    (cleanStepState s f).loopRuns = s.loopRuns + 1 := by
  simp [cleanStepState, updateStatusBar]

@[simp] theorem cleanStepState_found (s : Dashboard) (f : Nat) :
    (cleanStepState s f).loopFound = s.loopFound + f := by
  simp [cleanStepState, updateStatusBar]

theorem cleanAdvance_core (founds : List Nat) : ∀ s : Dashboard,
    (cleanAdvance s founds).discoveryLoopActive = s.discoveryLoopActive
    ∧ (cleanAdvance s founds).discoveryLoopStopping = s.discoveryLoopStopping
    ∧ (cleanAdvance s founds).loopRuns = s.loopRuns + founds.length
    ∧ (cleanAdvance s founds).loopFound = s.loopFound + founds.sum := by
  induction founds with
  | nil => intro s; simp [cleanAdvance]
  | cons f fs ih =>
    intro s
    obtain ⟨a, b, c, d⟩ := ih (cleanStepState s f)
    refine ⟨by simp [cleanAdvance, a], by simp [cleanAdvance, b], ?_, ?_⟩
    · show (cleanAdvance (cleanStepState s f) fs).loopRuns = _
      rw [c, cleanStepState_runs]
      simp [List.length_cons]
      omega
    · show (cleanAdvance (cleanStepState s f) fs).loopFound = _
      rw [d, cleanStepState_found]
      simp [List.sum_cons]
      omega

/-- A successful iteration with no concurrent stop request hands the loop the
`cleanStepState`-advanced state. -/
theorem discoveryLoopIter_clean (nOk : Bool) (s : Dashboard) (f : Nat)
    (hs : s.discoveryLoopStopping = false) :
    discoveryLoopIter nOk s (cleanRun f) = .inr (cleanStepState s f) := by
  rw [discoveryLoopIter, if_neg (by simp [hs])]
  simp only [cleanRun, applyStops_zero]
  rw [if_neg (by simp [updateStatusBar, hs])]
  rw [if_neg (by simp [updateStatusBar, hs])]
  simp only [applyStops_zero, cleanStepState, updateStatusBar]

/-- One successful, stop-free loop iteration advances the state by
`cleanStepState` and continues with the remaining trace. -/
theorem runDiscoveryLoop_clean_cons (nOk : Bool) (s : Dashboard) (f : Nat)
    (rest : List RunEvent) (hs : s.discoveryLoopStopping = false) :
    runDiscoveryLoop nOk s (cleanRun f :: rest)
      = runDiscoveryLoop nOk (cleanStepState s f) rest := by
  simp only [runDiscoveryLoop, discoveryLoopIter_clean nOk s f hs]

/-- A prefix of successful, stop-free iterations advances the state by
`cleanAdvance`. -/
theorem runDiscoveryLoop_clean_prefix (nOk : Bool) (founds : List Nat) :
    ∀ (s : Dashboard) (rest : List RunEvent), s.discoveryLoopStopping = false →
      runDiscoveryLoop nOk s (founds.map cleanRun ++ rest)
        = runDiscoveryLoop nOk (cleanAdvance s founds) rest := by
  induction founds with
  | nil => intro s rest _; rfl
  | cons f fs ih =>
    intro s rest hs
    rw [List.map_cons, List.cons_append, runDiscoveryLoop_clean_cons nOk s f _ hs]
    exact ih (cleanStepState s f) rest (by simp [hs])


/-- A successful run during which one or more stop requests arrived still
completes and is counted before the loop exits with reason `stopped`. -/
theorem runDiscoveryLoop_stop_event (nOk : Bool) (s : Dashboard) (k n : Nat)
    (rest : List RunEvent) (ha : s.discoveryLoopActive = true)
    (hs : s.discoveryLoopStopping = false) :
    (runDiscoveryLoop nOk s (stoppedRun k (n + 1) :: rest)).queued
      = some { runs := s.loopRuns + 1, discovered := s.loopFound + k,
               reason := some "stopped", error := false, message := none } := by
  simp only [runDiscoveryLoop]
  simp [discoveryLoopIter, stoppedRun, cleanRun, applyStops_pos, stopDiscoveryLoop,
        updateStatusBar, exitLoop_queued, ha, hs]

/-- A failed run exits the loop at once with reason `error`, keeping the
counters accumulated so far. -/
theorem runDiscoveryLoop_fail_event (nOk : Bool) (s : Dashboard)
    (rest : List RunEvent) (hs : s.discoveryLoopStopping = false) :
    (runDiscoveryLoop nOk s (failedRun :: rest)).queued
      = some { runs := s.loopRuns, discovered := s.loopFound,
               reason := some "error", error := true, message := none } := by
  simp only [runDiscoveryLoop]
  simp [discoveryLoopIter, failedRun, exitLoop_queued, updateStatusBar, hs]

theorem startDiscoveryLoop_run (s : Dashboard) (events : List RunEvent) (nOk : Bool)
    (h : s.discoveryLoopActive = false) :
    startDiscoveryLoop s true events nOk = runDiscoveryLoop nOk (loopEntryState s) events := by
  rw [startDiscoveryLoop, if_neg (by simp [h])]
  simp [loopEntryState]

@[simp] theorem loopEntryState_active (s : Dashboard) :
    (loopEntryState s).discoveryLoopActive = true := rfl

@[simp] theorem loopEntryState_stopping (s : Dashboard) :
    (loopEntryState s).discoveryLoopStopping = false := rfl

@[simp] theorem loopEntryState_runs (s : Dashboard) : (loopEntryState s).loopRuns = 0 := rfl

@[simp] theorem loopEntryState_found (s : Dashboard) : (loopEntryState s).loopFound = 0 := rfl

/-- The queued completion after a clean prefix followed by a run with a stop
request: every completed run is counted. -/
theorem startDiscoveryLoop_stopped_queued (s : Dashboard) (founds : List Nat) (k n : Nat)
    (rest : List RunEvent) (nOk : Bool) (h : s.discoveryLoopActive = false) :
    (startDiscoveryLoop s true (founds.map cleanRun ++ stoppedRun k (n + 1) :: rest) nOk).queued
      = some { runs := founds.length + 1, discovered := founds.sum + k,
               reason := some "stopped", error := false, message := none } := by
  rw [startDiscoveryLoop_run s _ nOk h,
      runDiscoveryLoop_clean_prefix nOk founds (loopEntryState s) _ (by simp)]
  obtain ⟨a, b, c, d⟩ := cleanAdvance_core founds (loopEntryState s)
  rw [runDiscoveryLoop_stop_event nOk _ k n rest (by rw [a]; simp) (by rw [b]; simp)]
  rw [c, d]
  simp

/-- The queued completion after a clean prefix followed by a failed run. -/
theorem startDiscoveryLoop_failed_queued (s : Dashboard) (founds : List Nat)
    (rest : List RunEvent) (nOk : Bool) (h : s.discoveryLoopActive = false) :
    (startDiscoveryLoop s true (founds.map cleanRun ++ failedRun :: rest) nOk).queued
      = some { runs := founds.length, discovered := founds.sum,
               reason := some "error", error := true, message := none } := by
  rw [startDiscoveryLoop_run s _ nOk h,
      runDiscoveryLoop_clean_prefix nOk founds (loopEntryState s) _ (by simp)]
  obtain ⟨a, b, c, d⟩ := cleanAdvance_core founds (loopEntryState s)
  rw [runDiscoveryLoop_fail_event nOk _ rest (by rw [b]; simp)]
  rw [c, d]
  simp


/-- The loop's response to a run is insensitive to how many (positive) stop
requests arrived during that run. -/
theorem runDiscoveryLoop_stops_merge (nOk : Bool) (k : Nat) (rest : List RunEvent) :
    ∀ (pre : List RunEvent) (s : Dashboard) (n m : Nat),
      runDiscoveryLoop nOk s (pre ++ stoppedRun k (n + 1) :: rest)
        = runDiscoveryLoop nOk s (pre ++ stoppedRun k (m + 1) :: rest) := by
  intro pre
  induction pre with
  | nil =>
    intro s n m
    simp only [List.nil_append, runDiscoveryLoop, discoveryLoopIter, stoppedRun, cleanRun,
               applyStops_pos]
  | cons e p ih =>
    intro s n m
    simp only [List.cons_append, runDiscoveryLoop]
    rcases hi : discoveryLoopIter nOk s e with out | s'
    · rfl
    · exact ih s' n m

/-- The double-stop trace and the single-stop trace yield the same
`startDiscoveryLoop` outcome in every starting state. -/
theorem startDiscoveryLoop_stops_merge (s : Dashboard) (haveInputs : Bool)
    (founds : List Nat) (k : Nat) (rest : List RunEvent) (nOk : Bool) (n m : Nat) :
    startDiscoveryLoop s haveInputs (founds.map cleanRun ++ stoppedRun k (n + 1) :: rest) nOk
      = startDiscoveryLoop s haveInputs (founds.map cleanRun ++ stoppedRun k (m + 1) :: rest) nOk := by
  unfold startDiscoveryLoop
  split_ifs
  · rfl
  · exact runDiscoveryLoop_stops_merge nOk k rest (founds.map cleanRun) _ n m
  · rfl

/-!
## Claim theorems
-/

/-- **C1.**  When the discovery loop exits, the queued completion record
(`queueDiscoveryLoopCompletion`) carries the cumulative counts of all runs
that completed before exit, with reason `stopped` when a stop was requested
and `error` when a run failed.  In particular, a stop requested during run
`founds.length + 1` lets that run complete and yields
`runs = founds.length + 1, discovered = founds.sum + k`; a failure during run
`founds.length + 1` yields the counts of the `founds.length` completed runs —
partial progress is never discarded. -/
theorem claim_C1_loop_completion_cumulative (s : Dashboard) (founds : List Nat)
    (k : Nat) (restStop restFail : List RunEvent) (nOk : Bool)
    (h : s.discoveryLoopActive = false) :
    (startDiscoveryLoop s true (founds.map cleanRun ++ stoppedRun k 1 :: restStop) nOk).queued
        = some { runs := founds.length + 1, discovered := founds.sum + k,
                 reason := some "stopped", error := false, message := none }
    ∧ (startDiscoveryLoop s true (founds.map cleanRun ++ failedRun :: restFail) nOk).queued
        = some { runs := founds.length, discovered := founds.sum,
                 reason := some "error", error := true, message := none } :=
  ⟨startDiscoveryLoop_stopped_queued s founds k 0 restStop nOk h,
   startDiscoveryLoop_failed_queued s founds restFail nOk h⟩

theorem claim_C1_witness :
    (startDiscoveryLoop newDashboard true ([2].map cleanRun ++ stoppedRun 2 1 :: []) true).queued
        = some { runs := 2, discovered := 4, reason := some "stopped",
                 error := false, message := none }
    ∧ (startDiscoveryLoop newDashboard true ([2].map cleanRun ++ failedRun :: []) true).queued
        = some { runs := 1, discovered := 2, reason := some "error",
                 error := true, message := none } := by
  have h := claim_C1_loop_completion_cumulative newDashboard [2] 2 [] [] true rfl
  simpa using h

/-- **C2.**  `stopDiscoveryLoop` is idempotent on the full dashboard state,
a second stop request during the same run leaves the whole
`startDiscoveryLoop` outcome unchanged, and in either case the in-flight run
completes and is counted before the loop exits (the completion record shows
`runs = founds.length + 1`, including the run during which the stops
arrived). -/
theorem claim_C2_stop_idempotent :
    (∀ s : Dashboard, stopDiscoveryLoop (stopDiscoveryLoop s) = stopDiscoveryLoop s)
    ∧ (∀ (s : Dashboard) (haveInputs : Bool) (founds : List Nat) (k : Nat)
         (rest : List RunEvent) (nOk : Bool),
        startDiscoveryLoop s haveInputs (founds.map cleanRun ++ stoppedRun k 2 :: rest) nOk
          = startDiscoveryLoop s haveInputs (founds.map cleanRun ++ stoppedRun k 1 :: rest) nOk)
    ∧ (∀ (s : Dashboard) (founds : List Nat) (k : Nat) (rest : List RunEvent) (nOk : Bool),
        s.discoveryLoopActive = false →
        (startDiscoveryLoop s true (founds.map cleanRun ++ stoppedRun k 2 :: rest) nOk).queued
          = some { runs := founds.length + 1, discovered := founds.sum + k,
                   reason := some "stopped", error := false, message := none }) :=
  ⟨stopDiscoveryLoop_idem,
   fun s hv founds k rest nOk => startDiscoveryLoop_stops_merge s hv founds k rest nOk 1 0,
   fun s founds k rest nOk h => startDiscoveryLoop_stopped_queued s founds k 1 rest nOk h⟩

theorem claim_C2_witness :
    stopDiscoveryLoop (stopDiscoveryLoop activeLoopDashboard)
        = stopDiscoveryLoop activeLoopDashboard
    ∧ (startDiscoveryLoop newDashboard true ([2].map cleanRun ++ stoppedRun 2 2 :: []) true).queued
        = some { runs := 2, discovered := 4, reason := some "stopped",
                 error := false, message := none } := by
  refine ⟨claim_C2_stop_idempotent.1 activeLoopDashboard, ?_⟩
  have h := claim_C2_stop_idempotent.2.2 newDashboard [2] 2 [] true rfl
  simpa using h

/-- **C4.**  Calling `startDiscoveryLoop` while the loop is already running
is a no-op apart from the user-visible notice: the returned state differs
from the input state only in the status bar, so counters, the stop-requested
flag, and all other loop state are untouched, and no loop body runs
(the outcome is `alreadyRunning`). -/
theorem claim_C4_start_while_running (s : Dashboard) (haveInputs : Bool)
    (events : List RunEvent) (nOk : Bool) (h : s.discoveryLoopActive = true) :
    startDiscoveryLoop s haveInputs events nOk
      = .alreadyRunning { s with statusMessage := some "Discovery loop is already running.",
                                 statusTone := "info" } := by
  unfold startDiscoveryLoop updateStatusBar
  simp [h]

theorem claim_C4_witness :
    startDiscoveryLoop activeLoopDashboard true [cleanRun 3] true
      = .alreadyRunning { activeLoopDashboard with
                            statusMessage := some "Discovery loop is already running.",
                            statusTone := "info" } :=
  claim_C4_start_while_running activeLoopDashboard true [cleanRun 3] true rfl


@[simp] theorem tryFinalize_pending (s : Dashboard) (ok : Bool) :
    (tryFinalizeDiscoveryLoop s ok).1.pendingAutoEnrich = s.pendingAutoEnrich := by
  unfold tryFinalizeDiscoveryLoop
  rcases hp : s.discoveryLoopCompletionPayload with _ | p <;> simp [hp] <;> split_ifs <;> simp

@[simp] theorem tryFinalize_busy (s : Dashboard) (ok : Bool) :
    (tryFinalizeDiscoveryLoop s ok).1.enrichmentBusy = s.enrichmentBusy := by
  unfold tryFinalizeDiscoveryLoop
  rcases hp : s.discoveryLoopCompletionPayload with _ | p <;> simp [hp] <;> split_ifs <;> simp

/-- While a job is busy and auto-enrich is enabled, `triggerAutoEnrich` queues
the count and starts nothing, leaving every other coordination field in
place. -/
theorem triggerAutoEnrich_busy (s : Dashboard) (c : Int) (ok : Bool)
    (hb : s.enrichmentBusy = true) (he : s.autoEnrichEnabled = true) (hc : 0 < c) :
    (triggerAutoEnrich s c ok).2 = none
    ∧ (triggerAutoEnrich s c ok).1.pendingAutoEnrich = s.pendingAutoEnrich + c
    ∧ (triggerAutoEnrich s c ok).1.enrichmentBusy = true
    ∧ (triggerAutoEnrich s c ok).1.autoEnrichEnabled = true
    ∧ (triggerAutoEnrich s c ok).1.autoEnrichMode = s.autoEnrichMode
    ∧ (triggerAutoEnrich s c ok).1.enrichLimit = s.enrichLimit
    ∧ (triggerAutoEnrich s c ok).1.discoveryLoopActive = s.discoveryLoopActive
    ∧ (triggerAutoEnrich s c ok).1.discoveryLoopCompletionPayload
        = s.discoveryLoopCompletionPayload
    ∧ (triggerAutoEnrich s c ok).1.finalizingDiscoveryLoop = s.finalizingDiscoveryLoop := by
  unfold triggerAutoEnrich updateStatusBar
  rw [if_neg (by omega), if_neg (by simp [he]), if_pos (by simp [hb])]
  cases hn : s.autoEnrichQueuedNotified <;> simp [hn, hb, he]

/-- Folding busy-time `triggerAutoEnrich` calls: nothing starts and the
pending counter accumulates the sum of the queued counts. -/
theorem queueTriggers_busy (counts : List Int) : ∀ s : Dashboard,
    s.enrichmentBusy = true → s.autoEnrichEnabled = true → (∀ c ∈ counts, 0 < c) →
    (queueTriggers s counts).2 = []
    ∧ (queueTriggers s counts).1.pendingAutoEnrich = s.pendingAutoEnrich + counts.sum
    ∧ (queueTriggers s counts).1.enrichmentBusy = true
    ∧ (queueTriggers s counts).1.autoEnrichEnabled = true
    ∧ (queueTriggers s counts).1.autoEnrichMode = s.autoEnrichMode
    ∧ (queueTriggers s counts).1.enrichLimit = s.enrichLimit
    ∧ (queueTriggers s counts).1.discoveryLoopActive = s.discoveryLoopActive
    ∧ (queueTriggers s counts).1.discoveryLoopCompletionPayload
        = s.discoveryLoopCompletionPayload
    ∧ (queueTriggers s counts).1.finalizingDiscoveryLoop = s.finalizingDiscoveryLoop := by
  induction counts with
  | nil => intro s hb he _; simp [queueTriggers, hb, he]
  | cons c cs ih =>
    intro s hb he hpos
    obtain ⟨j0, p0, b0, e0, m0, l0, a0, pay0, f0⟩ :=
      triggerAutoEnrich_busy s c true hb he (hpos c (by simp))
    obtain ⟨j1, p1, b1, e1, m1, l1, a1, pay1, f1⟩ :=
      ih (triggerAutoEnrich s c true).1 b0 e0 (fun x hx => hpos x (by simp [hx]))
    have hfst : (queueTriggers s (c :: cs)).1 = (queueTriggers (triggerAutoEnrich s c true).1 cs).1 := rfl
    have hsnd : (queueTriggers s (c :: cs)).2
        = (triggerAutoEnrich s c true).2.toList ++ (queueTriggers (triggerAutoEnrich s c true).1 cs).2 := rfl
    refine ⟨?_, ?_, ?_, ?_, ?_, ?_, ?_, ?_, ?_⟩
    · rw [hsnd, j0, j1]; rfl
    · rw [hfst, p1, p0, List.sum_cons]; ring
    · rw [hfst]; exact b1
    · rw [hfst]; exact e1
    · rw [hfst, m1, m0]
    · rw [hfst, l1, l0]
    · rw [hfst, a1, a0]
    · rw [hfst, pay1, pay0]
    · rw [hfst, f1, f0]

/-- After the `done` event, a positive pending auto-enrich total is submitted
as exactly one enrichment start carrying the whole total; if the submission
fails, the total is re-queued rather than lost. -/
theorem handleDoneEvent_drain (s : Dashboard) (stats : Option StatsView) (now : Int)
    (nOk : Bool) (he : s.autoEnrichEnabled = true) (hp : 0 < s.pendingAutoEnrich) :
    (handleDoneEvent s stats now true nOk).2
        = some { mode := if s.autoEnrichMode = "full" then "full" else "email_only",
                 limit := some s.pendingAutoEnrich }
    ∧ (handleDoneEvent s stats now true nOk).1.pendingAutoEnrich = 0
    ∧ (handleDoneEvent s stats now false nOk).2 = none
    ∧ (handleDoneEvent s stats now false nOk).1.pendingAutoEnrich = s.pendingAutoEnrich := by
  have hple : ¬ s.pendingAutoEnrich ≤ 0 := by omega
  unfold handleDoneEvent processPendingAutoEnrich triggerAutoEnrich handleEnrich
    handleEnrichStart updateStatusBar
  simp [he, hp, hple, apply_ite]

/-- A queued loop completion is left untouched (deferred) while the loop is
still running, an enrichment job is busy, or an auto-enrich is pending. -/
theorem tryFinalize_deferred (s : Dashboard) (p : CompletionPayload) (ok : Bool)
    (hpay : s.discoveryLoopCompletionPayload = some p)
    (hbusy : s.discoveryLoopActive = true ∨ s.enrichmentBusy = true
              ∨ 0 < s.pendingAutoEnrich) :
    tryFinalizeDiscoveryLoop s ok = (s, .deferred) := by
  unfold tryFinalizeDiscoveryLoop
  simp only [hpay]
  rw [if_pos (by rcases hbusy with h | h | h <;> simp [h])]

/-- Once everything has settled, a successful notification clears and marks
the payload sent; a failed notification leaves the state (and thus the
payload) untouched and schedules a 3000 ms retry. -/
theorem tryFinalize_settled (s : Dashboard) (p : CompletionPayload)
    (hpay : s.discoveryLoopCompletionPayload = some p)
    (ha : s.discoveryLoopActive = false) (hb : s.enrichmentBusy = false)
    (hpend : s.pendingAutoEnrich ≤ 0) (hf : s.finalizingDiscoveryLoop = false) :
    tryFinalizeDiscoveryLoop s true
        = ({ s with discoveryLoopCompletionPayload := none,
                    discoveryLoopCompletionSent := true }, .sent p)
    ∧ tryFinalizeDiscoveryLoop s false = (s, .retryScheduled 3000) := by
  unfold tryFinalizeDiscoveryLoop
  simp only [hpay]
  constructor <;>
    rw [if_neg (by simp [ha, hb]; omega), if_neg (by simp [hf])] <;> simp

/-- The retry chain: `n` failed notifications followed by a success deliver
the original payload; no failure drops it. -/
theorem retryFinalize_chain (n : Nat) : ∀ (s : Dashboard) (p : CompletionPayload),
    s.discoveryLoopCompletionPayload = some p → s.discoveryLoopActive = false →
    s.enrichmentBusy = false → s.pendingAutoEnrich ≤ 0 →
    s.finalizingDiscoveryLoop = false →
    retryFinalize s (List.replicate n false ++ [true])
      = ({ s with discoveryLoopCompletionPayload := none,
                  discoveryLoopCompletionSent := true },
         List.replicate n (.retryScheduled 3000) ++ [.sent p]) := by
  induction n with
  | zero =>
    intro s p hpay ha hb hpend hf
    have h1 := (tryFinalize_settled s p hpay ha hb hpend hf).1
    simp only [List.replicate, List.nil_append, retryFinalize, h1]
  | succ m ih =>
    intro s p hpay ha hb hpend hf
    have h2 := (tryFinalize_settled s p hpay ha hb hpend hf).2
    have h3 := ih s p hpay ha hb hpend hf
    simp only [List.replicate, List.cons_append, List.append_eq, retryFinalize, h2, h3]

/-- After the `done` event with nothing pending, the queued completion is
finalized: the payload is cleared and marked sent. -/
theorem handleDoneEvent_finalizes (s : Dashboard) (p : CompletionPayload)
    (stats : Option StatsView) (now : Int) (startOk : Bool)
    (hpay : s.discoveryLoopCompletionPayload = some p)
    (ha : s.discoveryLoopActive = false) (hpend : s.pendingAutoEnrich ≤ 0)
    (hf : s.finalizingDiscoveryLoop = false) :
    (handleDoneEvent s stats now startOk true).1.discoveryLoopCompletionPayload = none
    ∧ (handleDoneEvent s stats now startOk true).1.discoveryLoopCompletionSent = true := by
  unfold handleDoneEvent processPendingAutoEnrich tryFinalizeDiscoveryLoop
  simp [hpay, ha, hpend, hf]


/-- Whether `maybeRefreshAfterLoop` refreshes does not depend on the
`Date.now()` fallback. -/
theorem maybeRefresh_snd_now_indep (s : Dashboard) (st : StatsView) (now now' : Int) :
    (maybeRefreshAfterLoop s (some st) now).2 = (maybeRefreshAfterLoop s (some st) now').2 := by
  simp only [maybeRefreshAfterLoop]
  split_ifs <;> rfl

/-- Characterization of one `maybeRefreshAfterLoop` call: a `false` result
leaves the state unchanged; a `true` result implies every gate passed and
records the observed version (or the clock fallback) as last seen. -/
theorem maybeRefresh_result (s : Dashboard) (st : StatsView) (now : Int)
    (s' : Dashboard) (b : Bool)
    (h : maybeRefreshAfterLoop s (some st) now = (s', b)) :
    (b = false → s' = s)
    ∧ (b = true →
        (st.discoveryLoop.getD emptyLoopView).running = false
        ∧ ¬ (st.discoveryLoop.getD emptyLoopView).lastCompletedAt.getD "" = ""
        ∧ ¬ (0 < st.processing ∨ 0 < st.activeJobs)
        ∧ (∀ w, (st.discoveryLoop.getD emptyLoopView).version = some w →
              s.lastLoopCompletionVersion ≠ some w)
        ∧ s'.lastLoopCompletionVersion
            = some ((st.discoveryLoop.getD emptyLoopView).version.getD now)) := by
  simp only [maybeRefreshAfterLoop] at h
  split_ifs at h with h1 h2 h3 h4
  all_goals
    first
      | (obtain ⟨rfl, rfl⟩ := Prod.mk.injEq .. ▸ h
         exact ⟨fun _ => rfl, fun hb => absurd hb.symm (by simp)⟩)
      | (obtain ⟨rfl, rfl⟩ := Prod.mk.injEq .. ▸ h
         refine ⟨fun hb => absurd hb (by simp), fun _ => ?_⟩
         refine ⟨by simpa using h1, h2, h3, ?_, by simp [updateStatusBar]⟩
         intro w hw hseen
         exact h4 ⟨by simp [hw], by rw [hw, hseen]⟩)

/-- A poll whose loop version matches the last-seen value triggers nothing
and changes nothing. -/
theorem maybeRefresh_false_of_version_seen (s : Dashboard) (st : StatsView)
    (now : Int) (v : Int)
    (hv : (st.discoveryLoop.getD emptyLoopView).version = some v)
    (hm : s.lastLoopCompletionVersion = some v) :
    maybeRefreshAfterLoop s (some st) now = (s, false) := by
  simp only [maybeRefreshAfterLoop]
  split_ifs with h1 h2 h3 h4
  all_goals
    first
      | rfl
      | exact absurd ⟨by simp [hv], by rw [hv, hm]⟩ h4

/-- **C3.**  Auto-enrich requests arriving while a manual enrichment job is
active (`enrichmentBusy`) are queued, not dropped: each positive count is
added to `pendingAutoEnrich` and no start is submitted; after the job's
`done` event the accumulated total is submitted as exactly one enrichment
start (with the configured mode and the total as limit), and if that
submission fails the total is re-queued rather than lost. -/
theorem claim_C3_auto_enrich_queued (s : Dashboard) (counts : List Int)
    (stats : Option StatsView) (now : Int) (nOk : Bool)
    (hb : s.enrichmentBusy = true) (he : s.autoEnrichEnabled = true)
    (hp0 : 0 ≤ s.pendingAutoEnrich) (hne : counts ≠ [])
    (hpos : ∀ c ∈ counts, 0 < c) :
    (queueTriggers s counts).2 = []
    ∧ (queueTriggers s counts).1.pendingAutoEnrich = s.pendingAutoEnrich + counts.sum
    ∧ (handleDoneEvent (queueTriggers s counts).1 stats now true nOk).2
        = some { mode := if s.autoEnrichMode = "full" then "full" else "email_only",
                 limit := some (s.pendingAutoEnrich + counts.sum) }
    ∧ (handleDoneEvent (queueTriggers s counts).1 stats now true nOk).1.pendingAutoEnrich = 0
    ∧ (handleDoneEvent (queueTriggers s counts).1 stats now false nOk).2 = none
    ∧ (handleDoneEvent (queueTriggers s counts).1 stats now false nOk).1.pendingAutoEnrich
        = s.pendingAutoEnrich + counts.sum := by
  obtain ⟨j, p, b, e, m, l, a, pay, f⟩ := queueTriggers_busy counts s hb he hpos
  have hsum : 0 < counts.sum := List.sum_pos counts hpos hne
  have hp : 0 < (queueTriggers s counts).1.pendingAutoEnrich := by rw [p]; omega
  obtain ⟨d1, d2, d3, d4⟩ := handleDoneEvent_drain (queueTriggers s counts).1 stats now nOk e hp
  refine ⟨j, p, ?_, ?_, d3, ?_⟩
  · rw [d1, m, p]
  · exact d2
  · rw [d4, p]

theorem claim_C3_witness :
    (queueTriggers busyAutoDashboard [2, 3]).2 = []
    ∧ (queueTriggers busyAutoDashboard [2, 3]).1.pendingAutoEnrich = 5
    ∧ (handleDoneEvent (queueTriggers busyAutoDashboard [2, 3]).1 none 0 true true).2
        = some { mode := "email_only", limit := some 5 }
    ∧ (handleDoneEvent (queueTriggers busyAutoDashboard [2, 3]).1 none 0 false true).1.pendingAutoEnrich
        = 5 := by
  have h := claim_C3_auto_enrich_queued busyAutoDashboard [2, 3] none 0 true rfl rfl
    (by decide) (by decide) (by decide)
  exact ⟨h.1, by simpa using h.2.1, by simpa using h.2.2.1, by simpa using h.2.2.2.2.2⟩

/-- **C5.**  A queued loop completion detected while enrichment is active or
an auto-enrich is pending is deferred with the payload retained; after the
`done` event settles enrichment it is performed (payload cleared and marked
sent); and if the finalization call fails transiently it is retried on a
3000 ms backoff without ever dropping the payload: `n` failures followed by a
success still deliver the original payload. -/
theorem claim_C5_completion_not_lost :
    (∀ (s : Dashboard) (p : CompletionPayload) (ok : Bool),
      s.discoveryLoopCompletionPayload = some p →
      (s.discoveryLoopActive = true ∨ s.enrichmentBusy = true ∨ 0 < s.pendingAutoEnrich) →
      tryFinalizeDiscoveryLoop s ok = (s, .deferred))
    ∧ (∀ (s : Dashboard) (p : CompletionPayload) (stats : Option StatsView)
         (now : Int) (startOk : Bool),
        s.discoveryLoopCompletionPayload = some p → s.discoveryLoopActive = false →
        s.pendingAutoEnrich ≤ 0 → s.finalizingDiscoveryLoop = false →
        (handleDoneEvent s stats now startOk true).1.discoveryLoopCompletionPayload = none
        ∧ (handleDoneEvent s stats now startOk true).1.discoveryLoopCompletionSent = true)
    ∧ (∀ (s : Dashboard) (p : CompletionPayload) (n : Nat),
        s.discoveryLoopCompletionPayload = some p → s.discoveryLoopActive = false →
        s.enrichmentBusy = false → s.pendingAutoEnrich ≤ 0 →
        s.finalizingDiscoveryLoop = false →
        retryFinalize s (List.replicate n false ++ [true])
          = ({ s with discoveryLoopCompletionPayload := none,
                      discoveryLoopCompletionSent := true },
             List.replicate n (.retryScheduled 3000) ++ [.sent p])) :=
  ⟨fun s p ok hpay hbusy => tryFinalize_deferred s p ok hpay hbusy,
   fun s p stats now startOk hpay ha hpend hf =>
     handleDoneEvent_finalizes s p stats now startOk hpay ha hpend hf,
   fun s p n hpay ha hb hpend hf => retryFinalize_chain n s p hpay ha hb hpend hf⟩

theorem claim_C5_witness :
    tryFinalizeDiscoveryLoop pendingCompletionDashboard true
        = (pendingCompletionDashboard, .deferred)
    ∧ (handleDoneEvent pendingCompletionDashboard none 0 true true).1.discoveryLoopCompletionPayload
        = none
    ∧ retryFinalize settledCompletionDashboard [false, false, true]
        = ({ settledCompletionDashboard with discoveryLoopCompletionPayload := none,
                                             discoveryLoopCompletionSent := true },
           [.retryScheduled 3000, .retryScheduled 3000, .sent samplePayload]) := by
  refine ⟨claim_C5_completion_not_lost.1 pendingCompletionDashboard samplePayload true rfl
      (Or.inr (Or.inl rfl)), ?_, ?_⟩
  · exact (claim_C5_completion_not_lost.2.1 pendingCompletionDashboard samplePayload none 0
      true rfl rfl (by decide) rfl).1
  · have h := claim_C5_completion_not_lost.2.2 settledCompletionDashboard samplePayload 2
      rfl rfl rfl (by decide) rfl
    simpa using h

/-- **C6.**  `maybeRefreshAfterLoop` refreshes and notifies only when the
polled loop is not running, a completion timestamp exists, nothing is
processing and no job is active, and the completion version differs from the
last seen value; and invoking it again on the resulting state with the same
stats (the overlapping-poll case, with polls serialized by the
`statsPromise` single-flight guard in `loadStats`) never triggers a second
refresh. -/
theorem claim_C6_completion_processed_once :
    (∀ (s : Dashboard) (st : StatsView) (now : Int) (s' : Dashboard),
      maybeRefreshAfterLoop s (some st) now = (s', true) →
      (st.discoveryLoop.getD emptyLoopView).running = false
      ∧ ¬ (st.discoveryLoop.getD emptyLoopView).lastCompletedAt.getD "" = ""
      ∧ ¬ (0 < st.processing ∨ 0 < st.activeJobs)
      ∧ (∀ w, (st.discoveryLoop.getD emptyLoopView).version = some w →
            s.lastLoopCompletionVersion ≠ some w))
    ∧ (∀ (s : Dashboard) (st : StatsView) (now now' : Int) (v : Int),
        (st.discoveryLoop.getD emptyLoopView).version = some v →
        (maybeRefreshAfterLoop (maybeRefreshAfterLoop s (some st) now).1 (some st) now').2
          = false) := by
  constructor
  · intro s st now s' h
    obtain ⟨r, c, p, v, _⟩ := (maybeRefresh_result s st now s' true h).2 rfl
    exact ⟨r, c, p, v⟩
  · intro s st now now' v hv
    rcases hr : maybeRefreshAfterLoop s (some st) now with ⟨s1, b⟩
    cases b with
    | false =>
      have hid : s1 = s := (maybeRefresh_result s st now s1 false hr).1 rfl
      have hindep := maybeRefresh_snd_now_indep s st now now'
      simp only [hr]
      rw [hid, maybeRefresh_snd_now_indep s st now' now, hr]
    | true =>
      have hver := ((maybeRefresh_result s st now s1 true hr).2 rfl).2.2.2.2
      rw [hv] at hver
      simp only [Option.getD_some] at hver
      simp only [hr]
      rw [maybeRefresh_false_of_version_seen s1 st now' v hv hver]

theorem claim_C6_witness :
    ((sampleStats.discoveryLoop.getD emptyLoopView).running = false
      ∧ ¬ (sampleStats.discoveryLoop.getD emptyLoopView).lastCompletedAt.getD "" = ""
      ∧ ¬ (0 < sampleStats.processing ∨ 0 < sampleStats.activeJobs)
      ∧ (∀ w, (sampleStats.discoveryLoop.getD emptyLoopView).version = some w →
            newDashboard.lastLoopCompletionVersion ≠ some w))
    ∧ (maybeRefreshAfterLoop (maybeRefreshAfterLoop newDashboard (some sampleStats) 5).1
          (some sampleStats) 6).2 = false := by
  constructor
  · exact claim_C6_completion_processed_once.1 newDashboard sampleStats 5
      (maybeRefreshAfterLoop newDashboard (some sampleStats) 5).1 (by decide)
  · exact claim_C6_completion_processed_once.2 newDashboard sampleStats 5 6 7 (by decide)

/-- **C7 (amended).**  Starting a second manual enrichment while one is in
flight is rejected as a silent no-op: `handleEnrich` returns immediately, the
request is ignored (not queued), no job is started, and no modelled state is
changed — in particular no user-facing notice is emitted, contrary to the
original claim. -/
theorem claim_C7_busy_enrich_noop (s : Dashboard) (mode : String)
    (limitOverride : Option Int) (autoTriggered startOk : Bool)
    (h : s.enrichmentBusy = true) :
    handleEnrich s mode limitOverride autoTriggered startOk = (s, none) := by
  unfold handleEnrich
  rw [if_pos (by simp [h])]

/-- The original C7 requires a user-facing notice on a rejected double
start; on a busy dashboard with an empty status bar, `handleEnrich` emits
nothing: the state (including the status bar) is unchanged and no job is
started. -/
theorem claim_C7_counterexample :
    busyDashboard.enrichmentBusy = true
    ∧ busyDashboard.statusMessage = none
    ∧ handleEnrich busyDashboard "full" none false true = (busyDashboard, none)
    ∧ (handleEnrich busyDashboard "full" none false true).1.statusMessage = none := by
  refine ⟨rfl, rfl, ?_, rfl⟩
  rfl

theorem claim_C7_witness :
    handleEnrich busyDashboard "email_only" (some 5) false true = (busyDashboard, none) :=
  claim_C7_busy_enrich_noop busyDashboard "email_only" (some 5) false true rfl


theorem normalizePositiveIntField_nonneg (nos : String → Option ℚ) (v : JSVal) (d : Int)
    (h : normalizePositiveIntField nos v = some d) : 0 ≤ d := by
  rcases v with _ | _ | q | sv | b | l
  · simp [normalizePositiveIntField] at h
  · simp [normalizePositiveIntField] at h
  · rcases q with _ | q
    · simp [normalizePositiveIntField] at h
    · simp only [normalizePositiveIntField] at h
      split_ifs at h with hq
      obtain rfl : ⌊q⌋ = d := by injection h
      exact Int.le_floor.mpr (by exact_mod_cast hq.le)
  · simp only [normalizePositiveIntField] at h
    split_ifs at h with hs
    rcases hn : nos sv with _ | q
    · simp only [hn] at h
      exact absurd h (by simp)
    · simp only [hn] at h
      split_ifs at h with hq
      obtain rfl : ⌊q⌋ = d := by injection h
      exact Int.le_floor.mpr (by exact_mod_cast hq.le)
  · simp [normalizePositiveIntField] at h
  · simp [normalizePositiveIntField] at h

/-- Shape invariants of every `normalizeDiscoverySettings` result: the
per-keyword cap is at least 1, the optional day/limit fields are floors of
positive numbers (hence non-negative — note `Math.floor` maps `(0,1)` to `0`),
the mode is one of the two literals, and the derived lists re-parse their
text fields. -/
theorem normalizeDiscoverySettings_bounds (nos : String → Option ℚ) (raw : RawSettings) :
    1 ≤ (normalizeDiscoverySettings nos raw).perKeyword
    ∧ (∀ d, (normalizeDiscoverySettings nos raw).lastUploadMaxAgeDays = some d → 0 ≤ d)
    ∧ (∀ d, (normalizeDiscoverySettings nos raw).enrichLimit = some d → 0 ≤ d)
    ∧ ((normalizeDiscoverySettings nos raw).autoEnrichMode = "full"
        ∨ (normalizeDiscoverySettings nos raw).autoEnrichMode = "email_only")
    ∧ (normalizeDiscoverySettings nos raw).keywords
        = parseDiscoveryKeywords (normalizeDiscoverySettings nos raw).keywordsText
    ∧ (normalizeDiscoverySettings nos raw).denyLanguages
        = parseDiscoveryDenyLanguages (normalizeDiscoverySettings nos raw).denyLanguagesText := by
  refine ⟨?_, ?_, ?_, ?_, ?_, ?_⟩
  · rcases hq : jsNumber nos raw.perKeyword with _ | q
    · simp [normalizeDiscoverySettings, hq, defaultDiscoverySettingsState]
    · by_cases h : q ≤ 0
      · simp [normalizeDiscoverySettings, hq, h, defaultDiscoverySettingsState]
      · simp only [normalizeDiscoverySettings, hq]
        simp [h, le_max_left]
  · exact fun d h => normalizePositiveIntField_nonneg nos raw.lastUploadMaxAgeDays d h
  · exact fun d h => normalizePositiveIntField_nonneg nos raw.enrichLimit d h
  · by_cases h : raw.autoEnrichMode = JSVal.str "full"
    · left; simp [normalizeDiscoverySettings, h]
    · right; simp [normalizeDiscoverySettings, h]
  · rfl
  · rfl

/-- Saving and reloading is the identity on every settings record satisfying
the shape invariants with strictly positive optional fields. -/
theorem loadStored_id (nos' : String → Option ℚ) (t : DiscoverySettings)
    (hkw : t.keywords = parseDiscoveryKeywords t.keywordsText)
    (hdeny : t.denyLanguages = parseDiscoveryDenyLanguages t.denyLanguagesText)
    (hpk : 1 ≤ t.perKeyword)
    (hlast : ∀ d, t.lastUploadMaxAgeDays = some d → 0 < d)
    (henr : ∀ d, t.enrichLimit = some d → 0 < d)
    (hmode : t.autoEnrichMode = "full" ∨ t.autoEnrichMode = "email_only") :
    loadStoredDiscoverySettings nos' t = t := by
  obtain ⟨kt, kw, pk, lu, dt, dl, el, ae, am, rs⟩ := t
  simp only at hkw hdeny hpk hlast henr hmode
  have hpkq : ¬ ((pk : ℚ) ≤ 0) := by
    rw [not_le]
    exact_mod_cast by omega
  have hfloor : ⌊(pk : ℚ)⌋ = pk := Int.floor_intCast pk
  unfold loadStoredDiscoverySettings normalizeDiscoverySettings discoverySettingsToStoredRaw
  simp only [jsNumber, jsTruthy, DiscoverySettings.mk.injEq]
  refine ⟨trivial, hkw.symm, ?_, ?_, trivial, hdeny.symm, ?_, trivial, ?_, trivial⟩
  · rw [if_neg hpkq, hfloor]
    exact max_eq_right (by omega)
  · rcases lu with _ | d
    · rfl
    · have hd := hlast d rfl
      have hdq : (0 : ℚ) < (d : ℚ) := by exact_mod_cast hd
      simp [normalizePositiveIntField, hdq, Int.floor_intCast]
  · rcases el with _ | d
    · rfl
    · have hd := henr d rfl
      have hdq : (0 : ℚ) < (d : ℚ) := by exact_mod_cast hd
      simp [normalizePositiveIntField, hdq, Int.floor_intCast]
  · rcases hmode with h | h <;> subst h <;> simp

/-- **C9 (amended).**  Every `normalizeDiscoverySettings` result has an
integral `perKeyword ≥ 1`; `lastUploadMaxAgeDays` and `enrichLimit` are each
`null` or a non-negative integer (the floor of a positive number — `0`, not
`≥ 1`, for fractional inputs in `(0,1)`); `autoEnrichMode` is one of the two
literals; and `keywords` is exactly `parseDiscoveryKeywords` of the returned
`keywordsText` (the boolean fields are booleans by construction). -/
theorem claim_C9_normalize_invariants (nos : String → Option ℚ) (raw : RawSettings) :
    1 ≤ (normalizeDiscoverySettings nos raw).perKeyword
    ∧ (∀ d, (normalizeDiscoverySettings nos raw).lastUploadMaxAgeDays = some d → 0 ≤ d)
    ∧ (∀ d, (normalizeDiscoverySettings nos raw).enrichLimit = some d → 0 ≤ d)
    ∧ ((normalizeDiscoverySettings nos raw).autoEnrichMode = "full"
        ∨ (normalizeDiscoverySettings nos raw).autoEnrichMode = "email_only")
    ∧ (normalizeDiscoverySettings nos raw).keywords
        = parseDiscoveryKeywords (normalizeDiscoverySettings nos raw).keywordsText :=
  ⟨(normalizeDiscoverySettings_bounds nos raw).1,
   (normalizeDiscoverySettings_bounds nos raw).2.1,
   (normalizeDiscoverySettings_bounds nos raw).2.2.1,
   (normalizeDiscoverySettings_bounds nos raw).2.2.2.1,
   (normalizeDiscoverySettings_bounds nos raw).2.2.2.2.1⟩

/-- The original C9 claims `lastUploadMaxAgeDays` is `null` or `≥ 1`; the
input `0.5` produces `Math.floor(0.5) = 0`, which is neither. -/
theorem claim_C9_counterexample :
    ¬ ((normalizeDiscoverySettings nosNone rawHalfDay).lastUploadMaxAgeDays = none
       ∨ ∃ d : Int, (normalizeDiscoverySettings nosNone rawHalfDay).lastUploadMaxAgeDays = some d
            ∧ 1 ≤ d) := by
  have h : (normalizeDiscoverySettings nosNone rawHalfDay).lastUploadMaxAgeDays = some 0 := rfl
  rintro (h' | ⟨d, hd, hd1⟩)
  · rw [h] at h'; cases h'
  · rw [h] at hd
    obtain rfl : (0 : Int) = d := by injection hd
    omega

theorem claim_C9_witness :
    1 ≤ (normalizeDiscoverySettings nosNone rawHalfDay).perKeyword ∧ (0 : Int) ≤ 0 :=
  ⟨(claim_C9_normalize_invariants nosNone rawHalfDay).1,
   (claim_C9_normalize_invariants nosNone rawHalfDay).2.1 0 rfl⟩

/-- **C8 (amended).**  Saving a normalized settings record and reloading it
reproduces the record exactly — identical keyword list, numeric fields, and
boolean flags — provided the normalized `lastUploadMaxAgeDays` and
`enrichLimit` are not `0`.  (A fractional raw input in `(0,1)` normalizes to
`0`, which reloads as `null`, so the round-trip changes that field once; the
reloaded record is a fixed point.) -/
theorem claim_C8_roundtrip (nos nos' : String → Option ℚ) (raw : RawSettings)
    (h1 : (normalizeDiscoverySettings nos raw).lastUploadMaxAgeDays ≠ some 0)
    (h2 : (normalizeDiscoverySettings nos raw).enrichLimit ≠ some 0) :
    loadStoredDiscoverySettings nos' (normalizeDiscoverySettings nos raw)
      = normalizeDiscoverySettings nos raw := by
  obtain ⟨hpk, hlast, henr, hmode, hkw, hdeny⟩ := normalizeDiscoverySettings_bounds nos raw
  refine loadStored_id nos' _ hkw hdeny hpk ?_ ?_ hmode
  · intro d hd
    have hd0 := hlast d hd
    have hne : d ≠ 0 := by rintro rfl; exact h1 hd
    omega
  · intro d hd
    have hd0 := henr d hd
    have hne : d ≠ 0 := by rintro rfl; exact h2 hd
    omega

/-- The original C8 claims the round-trip reproduces the numeric fields for
every normalized record; the record produced from a raw
`lastUploadMaxAgeDays` of `0.5` stores `0` but reloads as `null`. -/
theorem claim_C8_counterexample :
    (normalizeDiscoverySettings nosNone rawHalfDay).lastUploadMaxAgeDays = some 0
    ∧ (loadStoredDiscoverySettings nosNone
          (normalizeDiscoverySettings nosNone rawHalfDay)).lastUploadMaxAgeDays = none := by
  exact ⟨rfl, rfl⟩

theorem claim_C8_witness :
    loadStoredDiscoverySettings nosNone (normalizeDiscoverySettings nosNone rawIntegral)
      = normalizeDiscoverySettings nosNone rawIntegral :=
  claim_C8_roundtrip nosNone nosNone rawIntegral (by decide) (by decide)


theorem pickUnique_snd_eq_dedup (l : List String) : ∀ seen : List String,
    (pickUnique seen l).2 = dedupByLowerFirst seen l := by
  induction l with
  | nil => intro seen; rfl
  | cons e rest ih =>
    intro seen
    simp only [pickUnique, dedupByLowerFirst]
    by_cases h : e.toLower ∈ seen
    · simp [h, ih]
    · simp [h, ih]

theorem pickUnique_snd_subset (l : List String) : ∀ seen : List String,
    (pickUnique seen l).2 ⊆ l := by
  induction l with
  | nil => intro seen; simp [pickUnique]
  | cons e rest ih =>
    intro seen
    simp only [pickUnique]
    by_cases h : e.toLower ∈ seen
    · simp only [if_pos h]
      exact (ih seen).trans (List.subset_cons_self e rest)
    · simp only [if_neg h]
      exact List.cons_subset_cons e (ih (e.toLower :: seen))

theorem pickUnique_fst_mem (l : List String) : ∀ (seen : List String) (a : String),
    a ∈ (pickUnique seen l).1 ↔ a ∈ seen ∨ a ∈ l.map (fun e => e.toLower) := by
  induction l with
  | nil => intro seen a; simp [pickUnique]
  | cons e rest ih =>
    intro seen a
    simp only [pickUnique, List.map_cons, List.mem_cons]
    by_cases h : e.toLower ∈ seen
    · simp only [if_pos h, ih]
      constructor
      · rintro (ha | ha)
        · exact Or.inl ha
        · exact Or.inr (Or.inr ha)
      · rintro (ha | he | ha)
        · exact Or.inl ha
        · exact Or.inl (he ▸ h)
        · exact Or.inr ha
    · simp only [if_neg h, ih, List.mem_cons]
      tauto

theorem dedupByLowerFirst_append (l1 : List String) : ∀ (seen : List String) (l2 : List String),
    dedupByLowerFirst seen (l1 ++ l2)
      = dedupByLowerFirst seen l1 ++ dedupByLowerFirst (pickUnique seen l1).1 l2 := by
  induction l1 with
  | nil => intro seen l2; rfl
  | cons e rest ih =>
    intro seen l2
    simp only [List.cons_append, dedupByLowerFirst, pickUnique]
    by_cases h : e.toLower ∈ seen
    · simp [h, ih]
    · simp [h, ih]

theorem dedupByLowerFirst_nodup (l : List String) : ∀ seen : List String,
    ((dedupByLowerFirst seen l).map (fun e => e.toLower)).Nodup
    ∧ ∀ a ∈ (dedupByLowerFirst seen l).map (fun e => e.toLower), a ∉ seen := by
  induction l with
  | nil => intro seen; simp [dedupByLowerFirst]
  | cons e rest ih =>
    intro seen
    by_cases h : e.toLower ∈ seen
    · simpa [dedupByLowerFirst, h] using ih seen
    · obtain ⟨hn, hs⟩ := ih (e.toLower :: seen)
      simp only [dedupByLowerFirst, if_neg h, List.map_cons]
      refine ⟨List.nodup_cons.mpr ⟨fun hmem => ?_, hn⟩, ?_⟩
      · exact hs _ hmem (by simp)
      · intro a ha
        rcases List.mem_cons.mp ha with rfl | ha
        · exact h
        · intro hseen
          exact hs a ha (List.mem_cons_of_mem _ hseen)

theorem uniqueFilterGo_eq_runs {α : Type} (em : String → List String)
    (items : List (ChannelRow α)) : ∀ seen : List String,
    uniqueFilterGo em seen items
      = (uniqueFilterRuns em seen items).map
          (fun q => { q.1 with emails := some (String.intercalate ", " q.2) }) := by
  induction items with
  | nil => intro seen; rfl
  | cons item rest ih =>
    intro seen
    simp only [uniqueFilterGo, uniqueFilterRuns]
    by_cases h1 : extractEmails em (rowEmailsText item) = []
    · simp [h1, ih]
    · simp only [if_neg h1]
      by_cases h2 : (pickUnique seen (extractEmails em (rowEmailsText item))).2 = []
      · simp [h2, ih]
      · simp [h2, ih]

theorem uniqueFilterRuns_fst_sublist {α : Type} (em : String → List String)
    (items : List (ChannelRow α)) : ∀ seen : List String,
    ((uniqueFilterRuns em seen items).map (fun q => q.1)).Sublist items := by
  induction items with
  | nil => intro seen; simp [uniqueFilterRuns]
  | cons item rest ih =>
    intro seen
    simp only [uniqueFilterRuns]
    by_cases h1 : extractEmails em (rowEmailsText item) = []
    · simp only [if_pos h1]
      exact (ih seen).cons item
    · simp only [if_neg h1]
      by_cases h2 : (pickUnique seen (extractEmails em (rowEmailsText item))).2 = []
      · simp only [if_pos h2]
        exact (ih _).cons item
      · simp only [if_neg h2, List.map_cons]
        exact (ih _).cons₂ item

theorem uniqueFilterRuns_mem {α : Type} (em : String → List String)
    (items : List (ChannelRow α)) : ∀ (seen : List String) (q : ChannelRow α × List String),
    q ∈ uniqueFilterRuns em seen items →
    q.2 ≠ [] ∧ q.1 ∈ items ∧ q.2 ⊆ extractEmails em (rowEmailsText q.1) := by
  induction items with
  | nil => intro seen q hq; simp [uniqueFilterRuns] at hq
  | cons item rest ih =>
    intro seen q hq
    simp only [uniqueFilterRuns] at hq
    by_cases h1 : extractEmails em (rowEmailsText item) = []
    · rw [if_pos h1] at hq
      obtain ⟨a, b, c⟩ := ih seen q hq
      exact ⟨a, List.mem_cons_of_mem _ b, c⟩
    · rw [if_neg h1] at hq
      by_cases h2 : (pickUnique seen (extractEmails em (rowEmailsText item))).2 = []
      · rw [if_pos h2] at hq
        obtain ⟨a, b, c⟩ := ih _ q hq
        exact ⟨a, List.mem_cons_of_mem _ b, c⟩
      · rw [if_neg h2] at hq
        rcases List.mem_cons.mp hq with rfl | hq
        · exact ⟨h2, by simp, pickUnique_snd_subset _ seen⟩
        · obtain ⟨a, b, c⟩ := ih _ q hq
          exact ⟨a, List.mem_cons_of_mem _ b, c⟩

theorem uniqueFilterRuns_flatten {α : Type} (em : String → List String)
    (items : List (ChannelRow α)) : ∀ seen : List String,
    ((uniqueFilterRuns em seen items).map (fun q => q.2)).flatten
      = dedupByLowerFirst seen
          ((items.map (fun it => extractEmails em (rowEmailsText it))).flatten) := by
  induction items with
  | nil => intro seen; rfl
  | cons item rest ih =>
    intro seen
    simp only [uniqueFilterRuns, List.map_cons, List.flatten_cons]
    rw [dedupByLowerFirst_append]
    rw [← pickUnique_snd_eq_dedup]
    by_cases h1 : extractEmails em (rowEmailsText item) = []
    · simp [h1, pickUnique, ih]
    · simp only [if_neg h1]
      by_cases h2 : (pickUnique seen (extractEmails em (rowEmailsText item))).2 = []
      · simp [h2, ih]
      · simp [h2, ih]

/-- **C10.**  `applyUniqueEmailFilter` keeps an order-preserving subsequence
of the input rows; every kept row corresponds to an input row whose extracted
e-mails contributed a non-empty kept list, re-emitted with the kept e-mails
joined by a comma; the kept e-mails, flattened across all rows, are exactly
the first-occurrence-wins deduplication (keyed by the lower-cased address) of
the whole extracted e-mail stream; consequently no address appears twice in
the output, case-insensitively. -/
theorem claim_C10_unique_email_filter {α : Type} (em : String → List String)
    (items : List (ChannelRow α)) :
    applyUniqueEmailFilter em items
      = (uniqueFilterRuns em [] items).map
          (fun q => { q.1 with emails := some (String.intercalate ", " q.2) })
    ∧ ((uniqueFilterRuns em [] items).map (fun q => q.1)).Sublist items
    ∧ (∀ q ∈ uniqueFilterRuns em [] items,
        q.2 ≠ [] ∧ q.1 ∈ items ∧ q.2 ⊆ extractEmails em (rowEmailsText q.1))
    ∧ ((uniqueFilterRuns em [] items).map (fun q => q.2)).flatten
        = dedupByLowerFirst []
            ((items.map (fun it => extractEmails em (rowEmailsText it))).flatten)
    ∧ (((uniqueFilterRuns em [] items).map (fun q => q.2)).flatten.map
          (fun e => e.toLower)).Nodup :=
  ⟨uniqueFilterGo_eq_runs em items [],
   uniqueFilterRuns_fst_sublist em items [],
   fun q hq => uniqueFilterRuns_mem em items [] q hq,
   uniqueFilterRuns_flatten em items [],
   by
    rw [uniqueFilterRuns_flatten em items []]
    exact (dedupByLowerFirst_nodup _ []).1⟩

theorem claim_C10_witness :
    applyUniqueEmailFilter emNoMatch sampleRows = []
    ∧ ((uniqueFilterRuns emNoMatch [] sampleRows).map (fun q => q.2)).flatten
        = dedupByLowerFirst []
            ((sampleRows.map (fun it => extractEmails emNoMatch (rowEmailsText it))).flatten) := by
  have h := claim_C10_unique_email_filter emNoMatch sampleRows
  exact ⟨by rw [h.1]; rfl, h.2.2.2.1⟩

end YtScraper
